import Mathlib

/-!
Shallow embedding of the rendering core of the BelimFaux/Raytracer
repository.  Every `f32` value is modelled as a rational number; the
transcendental float intrinsics (`sqrt`, `tan`, `atan2`, `asin`, `log2`,
`powf`) and the float constant `PI` are collected in a record `Fns` of
uninterpreted functions that is threaded through the definitions, mirroring
their role as opaque primitives of the source.  The `f32` value
`f32::INFINITY`, used as the default `max_t` bound of a ray, is modelled by
`⊤ : WithTop ℚ`.
-/

/-- Record of the opaque float intrinsics used by the renderer. -/
structure Fns where
  sqrt : ℚ → ℚ
  tan : ℚ → ℚ
  atan2 : ℚ → ℚ → ℚ
  asin : ℚ → ℚ
  log2 : ℚ → ℚ
  powf : ℚ → ℚ → ℚ
  pi : ℚ

/-- Constant `BIAS = 1e-4` from `src/math/util.rs`, used to offset secondary
rays from the surface. -/
def BIAS : ℚ := 1 / 10000

/-- Function `max` from `src/math/util.rs`: `if rhs > lhs { rhs } else { lhs }`. -/
def fmax (rhs lhs : ℚ) : ℚ := if rhs > lhs then rhs else lhs

/-- Function `min` from `src/math/util.rs`: `if rhs < lhs { rhs } else { lhs }`. -/
def fmin (rhs lhs : ℚ) : ℚ := if rhs < lhs then rhs else lhs

/-- Generic `lerp` from `src/math/util.rs` at scalar type: `a * (1 - w) + b * w`. -/
def lerpQ (a b w : ℚ) : ℚ := a * (1 - w) + b * w

/-- Truncation of a rational toward zero, the rounding of the Rust `%`
remainder and of `as u32` casts. -/
def truncQ (x : ℚ) : ℤ := if 0 ≤ x then ⌊x⌋ else ⌈x⌉

/-- Rust `x % 1.0` on `f32`: remainder with the sign of the dividend,
`x - trunc x`. -/
def fmodOne (x : ℚ) : ℚ := x - truncQ x

/-- Rust `as u32` cast from `f32`: rounds toward zero and saturates at the
bounds of `u32`. -/
def f32toU32 (x : ℚ) : ℕ := if x ≤ 0 then 0 else min ⌊x⌋.toNat (2 ^ 32 - 1)

/-- Struct `Vec3` from `src/math/vec3.rs` (also used as `Point3` and
`Color`): three `f32` components. -/
structure Vec3 where
  x : ℚ
  y : ℚ
  z : ℚ
deriving DecidableEq, Repr

instance : Add Vec3 := ⟨fun a b => ⟨a.x + b.x, a.y + b.y, a.z + b.z⟩⟩

instance : Sub Vec3 := ⟨fun a b => ⟨a.x - b.x, a.y - b.y, a.z - b.z⟩⟩

instance : Neg Vec3 := ⟨fun a => ⟨-a.x, -a.y, -a.z⟩⟩

instance : Mul Vec3 := ⟨fun a b => ⟨a.x * b.x, a.y * b.y, a.z * b.z⟩⟩

instance : HMul Vec3 ℚ Vec3 := ⟨fun a k => ⟨a.x * k, a.y * k, a.z * k⟩⟩

instance : HMul ℚ Vec3 Vec3 := ⟨fun k a => a * k⟩

instance : HDiv Vec3 ℚ Vec3 := ⟨fun a k => a * ((1 : ℚ) / k)⟩

/-- Constructor `Vec3::zero`. -/
def Vec3.zero : Vec3 := ⟨0, 0, 0⟩

instance : Zero Vec3 := ⟨Vec3.zero⟩

/-- Method `Vec3::dot`. -/
def Vec3.dot (a b : Vec3) : ℚ := a.x * b.x + a.y * b.y + a.z * b.z

/-- Method `Vec3::cross`. -/
def Vec3.cross (a b : Vec3) : Vec3 :=
  ⟨a.y * b.z - a.z * b.y, a.z * b.x - a.x * b.z, a.x * b.y - a.y * b.x⟩

/-- Method `Vec3::length_squared`. -/
def Vec3.length_squared (a : Vec3) : ℚ := a.x * a.x + a.y * a.y + a.z * a.z

/-- Method `Vec3::length`: `f32::sqrt(length_squared)`. -/
def Vec3.length (F : Fns) (a : Vec3) : ℚ := F.sqrt a.length_squared

/-- Associated function `Vec3::normal`: each component divided by the
length. -/
def Vec3.normal (F : Fns) (v : Vec3) : Vec3 :=
  ⟨v.x / Vec3.length F v, v.y / Vec3.length F v, v.z / Vec3.length F v⟩

/-- Associated function `Vec3::reflect`: `i - 2.0 * dot(n, i) * n`. -/
def Vec3.reflect (i n : Vec3) : Vec3 := i - (2 * n.dot i) * n

/-- Generic `lerp` from `src/math/util.rs` at type `Vec3`. -/
def lerpV (a b : Vec3) (w : ℚ) : Vec3 := a * (1 - w) + b * w

/-- Struct `Quat` from `src/math/quat.rs`: scalar part `r` and vector part
`v`.  Note `Quat::new(x, y, z, w)` stores `r = x`, `v = (y, z, w)`. -/
structure Quat where
  r : ℚ
  v : Vec3
deriving DecidableEq, Repr

/-- Constructor `Quat::new`. -/
def Quat.new (x y z w : ℚ) : Quat := ⟨x, ⟨y, z, w⟩⟩

/-- Method `Quat::square`: `(r² - ‖v‖², 2 r v)`. -/
def Quat.square (q : Quat) : Quat := ⟨q.r * q.r - q.v.length_squared, (2 * q.r) * q.v⟩

/-- Method `Quat::length_squared`. -/
def Quat.length_squared (q : Quat) : ℚ := q.r * q.r + q.v.length_squared

/-- Method `Quat::length`. -/
def Quat.length (F : Fns) (q : Quat) : ℚ := F.sqrt q.length_squared

instance : Add Quat := ⟨fun a b => ⟨a.r + b.r, a.v + b.v⟩⟩

instance : Sub Quat := ⟨fun a b => ⟨a.r - b.r, a.v - b.v⟩⟩

/-- Quaternion multiplication from `src/math/quat.rs` (non commutative). -/
def Quat.mul (a b : Quat) : Quat :=
  ⟨a.r * b.r - a.v.dot b.v, a.r * b.v + b.r * a.v + a.v.cross b.v⟩

/-- Scalar multiplication `Quat * f32`. -/
def Quat.scale (a : Quat) (k : ℚ) : Quat := ⟨a.r * k, a.v * k⟩

/-- Struct `Mat4` from `src/math/mat4.rs`: sixteen `f32` values, row major. -/
structure Mat4 where
  m0 : ℚ
  m1 : ℚ
  m2 : ℚ
  m3 : ℚ
  m4 : ℚ
  m5 : ℚ
  m6 : ℚ
  m7 : ℚ
  m8 : ℚ
  m9 : ℚ
  m10 : ℚ
  m11 : ℚ
  m12 : ℚ
  m13 : ℚ
  m14 : ℚ
  m15 : ℚ
deriving DecidableEq, Repr

/-- Constructor `Mat4::identity`. -/
def Mat4.identity : Mat4 :=
  ⟨1, 0, 0, 0, 0, 1, 0, 0, 0, 0, 1, 0, 0, 0, 0, 1⟩

/-- Constructor `Mat4::look_at` from camera position, look-at point and up
vector. -/
def Mat4.look_at (F : Fns) (from_ at_ : Vec3) (up : Vec3) : Mat4 :=
  let z := Vec3.normal F (from_ - at_)
  let x := Vec3.normal F (up.cross z)
  let y := Vec3.normal F (z.cross x)
  ⟨x.x, y.x, z.x, from_.x,
   x.y, y.y, z.y, from_.y,
   x.z, y.z, z.z, from_.z,
   0, 0, 0, 1⟩

/-- Method `Mat4::multiply_vec4` restricted to its two uses. -/
def Mat4.multiply_vec4 (m : Mat4) (x y z w : ℚ) : Vec3 :=
  ⟨m.m0 * x + m.m1 * y + m.m2 * z + m.m3 * w,
   m.m4 * x + m.m5 * y + m.m6 * z + m.m7 * w,
   m.m8 * x + m.m9 * y + m.m10 * z + m.m11 * w⟩

/-- Method `Mat4::transform_point`: multiply with `w = 1`. -/
def Mat4.transform_point (m : Mat4) (p : Vec3) : Vec3 := m.multiply_vec4 p.x p.y p.z 1

/-- Method `Mat4::transform_vector`: multiply with `w = 0`. -/
def Mat4.transform_vector (m : Mat4) (v : Vec3) : Vec3 := m.multiply_vec4 v.x v.y v.z 0

/-- Struct `Ray` from `src/math/ray.rs`.  The `f32` bound `max_t`
(`f32::INFINITY` by default) is modelled in `WithTop ℚ`. -/
structure Ray where
  origin : Vec3
  direction : Vec3
  maxT : WithTop ℚ
deriving DecidableEq, Repr

/-- Constructor `Ray::new`: unbounded (`max_t = f32::INFINITY`). -/
def Ray.new (origin direction : Vec3) : Ray := ⟨origin, direction, ⊤⟩

/-- Method `Ray::set_bounds`. -/
def Ray.set_bounds (r : Ray) (m : WithTop ℚ) : Ray := ⟨r.origin, r.direction, m⟩

/-- Method `Ray::t_in_range`: `(0.0..=max_t).contains(t)`. -/
def Ray.t_in_range (r : Ray) (t : ℚ) : Prop := 0 ≤ t ∧ (t : WithTop ℚ) ≤ r.maxT

instance (r : Ray) (t : ℚ) : Decidable (r.t_in_range t) := by
  unfold Ray.t_in_range
  infer_instance

/-- Method `Ray::at`: the point `origin + t * direction` when
`t ∈ [0, max_t]`, `None` otherwise. -/
def Ray.at_t (r : Ray) (t : ℚ) : Option Vec3 :=
  if r.t_in_range t then some (r.origin + t * r.direction) else none

/-- Method `Ray::transform`: transform origin with `w = 1` and direction with
`w = 0`; the direction is not renormalized and `max_t` is kept. -/
def Ray.transform (r : Ray) (m : Mat4) : Ray :=
  (Ray.new (m.transform_point r.origin) (m.transform_vector r.direction)).set_bounds r.maxT

/-- Method `Ray::normal`: normalize the direction (note the result is a fresh
`Ray::new`, so the bound resets to infinity as in the source). -/
def Ray.normal (F : Fns) (r : Ray) : Ray := Ray.new r.origin (Vec3.normal F r.direction)

/-- Pixel type `Rgb = [u8; 3]` from `src/image.rs`. -/
def Rgb : Type := ℕ × ℕ × ℕ

instance : DecidableEq Rgb := by
  unfold Rgb
  infer_instance

/-- Struct `Image` from `src/image.rs`: dimensions and a buffer of frames of
pixels. -/
structure Image where
  width : ℕ
  height : ℕ
  buf : List (List Rgb)
deriving DecidableEq

/-- Method `Image::get_pixel`: casts `u * width` and `v * height` to `u32`
and indexes `buf[frame][x + width * y]`.  The source unwraps and panics on an
out-of-range index; the panic is modelled by `none`. -/
def Image.get_pixel (img : Image) (frame : ℕ) (u v : ℚ) : Option Rgb :=
  let x := f32toU32 (u * (img.width : ℚ))
  let y := f32toU32 (v * (img.height : ℚ))
  (img.buf.get? frame).bind (fun fr => fr.get? (x + img.width * y))

/-- Associated function `Color::from` on an `Rgb` value: each channel divided
by `255.999`. -/
def Color.fromRgb (p : Rgb) : Vec3 :=
  ⟨(p.1 : ℚ) / (255999 / 1000), (p.2.1 : ℚ) / (255999 / 1000), (p.2.2 : ℚ) / (255999 / 1000)⟩

/-- Texel type `(f32, f32)` from `src/objects/surface/mod.rs`. -/
def Texel : Type := ℚ × ℚ

instance : DecidableEq Texel := by
  unfold Texel
  infer_instance

/-- Enum `Texture` from `src/objects/surface/material.rs`. -/
inductive Texture where
  | color (c : Vec3)
  | image (i : Image)
deriving DecidableEq

/-- Method `Texture::get_color`, with the panic of the image lookup surfaced
as `none`. -/
def Texture.get_color? (tex : Texture) (texel : Texel) : Option Vec3 :=
  match tex with
  | Texture.color c => some c
  | Texture.image i => (i.get_pixel 0 texel.1 texel.2).map Color.fromRgb

/-- Total version of `Texture::get_color` used by the shading path; the
default is only reached where the source would panic. -/
def Texture.get_color (tex : Texture) (texel : Texel) : Vec3 :=
  (tex.get_color? texel).getD Vec3.zero

/-- Enum `ShadingModel` from `src/objects/surface/material.rs`. -/
inductive ShadingModel where
  | phong (ka kd ks : ℚ) (exp : ℕ)
  | cook_torrance (ka ks roughness : ℚ)
deriving DecidableEq

/-- Helper `ShadingModel::g1` (GGX geometric shadowing). -/
def ShadingModel.g1 (F : Fns) (x h n : Vec3) (alpha2 : ℚ) : ℚ :=
  let xdotn := fmax (x.dot n) 0
  let chi : ℚ := if x.dot h / x.dot n > 0 then 1 else 0
  let tan2x := (1 - xdotn * xdotn) / (xdotn * xdotn)
  chi * 2 / fmax (1 + F.sqrt (1 + alpha2 * tan2x)) (1 / 100000)

/-- Helper `ShadingModel::g_ggx`. -/
def ShadingModel.g_ggx (F : Fns) (n h e l : Vec3) (alpha2 : ℚ) : ℚ :=
  ShadingModel.g1 F e h n alpha2 * ShadingModel.g1 F l h n alpha2

/-- Helper `ShadingModel::d_ggx` (GGX normal distribution). -/
def ShadingModel.d_ggx (F : Fns) (n h : Vec3) (alpha2 : ℚ) : ℚ :=
  let hdotn := fmax (h.dot n) 0
  let chi : ℚ := if h.dot n > 0 then 1 else 0
  let denom := hdotn * hdotn * (alpha2 - 1) + 1
  chi * alpha2 / fmax (F.pi * denom * denom) (1 / 100000)

/-- Helper `ShadingModel::fresnel` (Schlick approximation). -/
def ShadingModel.fresnel (F : Fns) (f0 h v : Vec3) : Vec3 :=
  let vdoth := fmax (v.dot h) 0
  f0 + (Vec3.mk 1 1 1 - f0) * F.powf (1 - vdoth) 5

/-- Helper `ShadingModel::cook_torrance_color`. -/
def ShadingModel.cook_torrance_color (F : Fns) (ks alpha : ℚ) (light_color : Vec3)
    (neg_light vnormal neg_veye : Vec3) (frag_color : Vec3) : Vec3 :=
  let alpha2 := alpha * alpha
  let f0 : Vec3 := ⟨56 / 100, 57 / 100, 58 / 100⟩
  let l := -(Vec3.normal F neg_light)
  let n := Vec3.normal F vnormal
  let e := -(Vec3.normal F neg_veye)
  let h := Vec3.normal F (e + l)
  let s := ks
  let d := 1 - s
  let ndotl := fmax (n.dot l) 0
  let ndote := fmax (n.dot e) 0
  let distribution := ShadingModel.d_ggx F n h alpha2
  let geo_shadowing := ShadingModel.g_ggx F n h e l alpha2
  let fresnel := ShadingModel.fresnel F f0 h e
  let r_s := (fresnel * (distribution * geo_shadowing)) / fmax (4 * ndotl * ndote) (1 / 100000)
  let diffuse := frag_color
  let brdf := d * diffuse + s * r_s
  (light_color * ndotl) * brdf

/-- Helper `ShadingModel::phong_color`. -/
def ShadingModel.phong_color (F : Fns) (kd ks : ℚ) (exp : ℕ) (light_color : Vec3)
    (neg_light vnormal neg_veye : Vec3) (frag_color : Vec3) : Vec3 :=
  let l := Vec3.normal F neg_light
  let n := -(Vec3.normal F vnormal)
  let diffuse := ((light_color * frag_color) * kd) * fmax (l.dot n) 0
  let r := Vec3.reflect l n
  let e := -(Vec3.normal F neg_veye)
  let specular := (light_color * ks) * F.powf (fmax (e.dot r) 0) (exp : ℚ)
  diffuse + specular

/-- Method `ShadingModel::shading_color`. -/
def ShadingModel.shading_color (F : Fns) (sm : ShadingModel) (light_color : Vec3)
    (neg_light vnormal neg_veye : Vec3) (frag_color : Vec3) : Vec3 :=
  match sm with
  | ShadingModel.phong _ kd ks exp =>
      ShadingModel.phong_color F kd ks exp light_color neg_light vnormal neg_veye frag_color
  | ShadingModel.cook_torrance _ ks roughness =>
      ShadingModel.cook_torrance_color F ks roughness light_color neg_light vnormal neg_veye
        frag_color

/-- Method `ShadingModel::ambient`. -/
def ShadingModel.ambient (sm : ShadingModel) : ℚ :=
  match sm with
  | ShadingModel.phong ka _ _ _ => ka
  | ShadingModel.cook_torrance ka _ _ => ka

/-- Struct `Material` from `src/objects/surface/material.rs`. -/
structure Material where
  reflectance : ℚ
  transmittance : ℚ
  refraction : ℚ
  texture : Texture
  shading : ShadingModel
deriving DecidableEq

/-- Enum `Light` from `src/objects/light.rs`. -/
inductive Light where
  | ambient (color : Vec3)
  | parallel (color direction : Vec3)
  | point (color position : Vec3)
  | spot (color position direction : Vec3) (falloff : ℚ × ℚ)
deriving DecidableEq

/-- Function `smoothstep` from `src/math/util.rs`. -/
def smoothstep (edge0 edge1 t : ℚ) : ℚ :=
  let x := min (max ((t - edge0) / (edge1 - edge0)) 0) 1
  x * x * (3 - 2 * x)

/-- Method `Material::get_color`. -/
def Material.get_color (F : Fns) (m : Material) (point normal : Vec3) (light : Light)
    (texel : Texel) (ray : Ray) : Vec3 :=
  match light with
  | Light.ambient color => (color * m.texture.get_color texel) * m.shading.ambient
  | Light.parallel color direction =>
      m.shading.shading_color F color direction normal ray.direction (m.texture.get_color texel)
  | Light.point color position =>
      let dir := point - position
      m.shading.shading_color F color dir normal ray.direction (m.texture.get_color texel)
  | Light.spot color position direction falloff =>
      let dir := Vec3.normal F (point - position)
      let dot_from_dir := dir.dot (Vec3.normal F direction)
      let in_light := smoothstep falloff.2 falloff.1 dot_from_dir
      if in_light = 0 then Vec3.zero
      else
        in_light *
          m.shading.shading_color F color dir normal ray.direction (m.texture.get_color texel)

/-- Method `Light::shadow_ray` from `src/objects/light.rs`. -/
def Light.shadow_ray (F : Fns) (l : Light) (from_ : Vec3) : Option Ray :=
  match l with
  | Light.ambient _ => none
  | Light.parallel _ direction =>
      let direction := -(Vec3.normal F direction)
      let pos := from_ + BIAS * direction
      some (Ray.new pos direction)
  | Light.point _ position =>
      let direction := position - from_
      let length := direction.length F
      let direction := direction / length
      let pos := from_ + BIAS * direction
      some ((Ray.new pos direction).set_bounds (length : WithTop ℚ))
  | Light.spot _ position direction falloff =>
      let shadow_direction := position - from_
      let length := shadow_direction.length F
      let shadow_direction := shadow_direction / length
      let light_dir := -(Vec3.normal F direction)
      let limit := falloff.2
      if light_dir.dot shadow_direction < limit then none
      else
        let pos := from_ + BIAS * shadow_direction
        some ((Ray.new pos shadow_direction).set_bounds (length : WithTop ℚ))

/-- Animation data of a sphere from `src/objects/surface/sphere.rs`: start
parameters and optional end parameters. -/
structure SphereAnim where
  start : Vec3 × ℚ
  endP : Option (Vec3 × ℚ)
deriving DecidableEq

/-- Struct `Sphere` from `src/objects/surface/sphere.rs`. -/
structure Sphere where
  center : Vec3
  radius : ℚ
  animation : SphereAnim
deriving DecidableEq

/-- Constructor `Sphere::new`. -/
def Sphere.new (center : Vec3) (radius : ℚ) : Sphere :=
  ⟨center, radius, ⟨(center, radius), none⟩⟩

/-- Method `Sphere::set_frame`: lerp between the start and end parameters
with weight `w` (no effect without end parameters). -/
def Sphere.set_frame (s : Sphere) (w : ℚ) : Sphere :=
  match s.animation.endP with
  | some (ec, er) =>
      { s with center := lerpV s.animation.start.1 ec w, radius := lerpQ s.animation.start.2 er w }
  | none => s

/-- Method `Sphere::set_end`. -/
def Sphere.set_end (s : Sphere) (e : Vec3 × ℚ) : Sphere :=
  { s with animation := { s.animation with endP := some e } }

/-- Method `Sphere::intersection_coefficients`: `(a, h, c)` with
`oc = center - origin`, `a = ‖d‖²`, `h = d · oc`, `c = ‖oc‖² - r²`. -/
def Sphere.intersection_coefficients (s : Sphere) (with_ : Ray) : ℚ × ℚ × ℚ :=
  let oc := s.center - with_.origin
  let a := with_.direction.length_squared
  let h := with_.direction.dot oc
  let c := oc.length_squared - s.radius * s.radius
  (a, h, c)

/-- Method `Sphere::has_intersection`: discriminant nonnegative and the
smaller root `(h - √Δ)/a` within the ray bounds. -/
def Sphere.has_intersection (F : Fns) (s : Sphere) (with_ : Ray) : Bool :=
  let (a, h, c) := s.intersection_coefficients with_
  let discr := h * h - a * c
  decide (0 ≤ discr) && (with_.at_t ((h - F.sqrt discr) / a)).isSome

/-- Method `Sphere::get_texel_at`: equirectangular map of
`d = normalize(center - p)`. -/
def Sphere.get_texel_at (F : Fns) (s : Sphere) (p : Vec3) : Texel :=
  let d := Vec3.normal F (s.center - p)
  let u := 1 / 2 + F.atan2 d.x d.z / (2 * F.pi)
  let v := 1 / 2 - F.asin d.y / F.pi
  (u, v)

/-- Method `Sphere::intersection`: no hit when the discriminant is negative;
otherwise the smaller root, or the larger root when the smaller numerator is
negative; the hit must pass `Ray::at`.  The returned normal `p - center` is
not normalized. -/
def Sphere.intersection (F : Fns) (s : Sphere) (with_ : Ray) : Option (ℚ × Vec3 × Texel) :=
  let (a, h, c) := s.intersection_coefficients with_
  let discr := h * h - a * c
  if discr < 0 then none
  else
    let discr := F.sqrt discr
    let t := if h - discr < 0 then (h + discr) / a else (h - discr) / a
    match with_.at_t t with
    | none => none
    | some point => some (t, point - s.center, s.get_texel_at F point)

/-- Struct `Triangle` from `src/objects/surface/mesh.rs`: corner points,
per-corner normals and texture coordinates. -/
structure Triangle where
  p0 : Vec3
  p1 : Vec3
  p2 : Vec3
  n0 : Vec3
  n1 : Vec3
  n2 : Vec3
  t0 : ℚ × ℚ
  t1 : ℚ × ℚ
  t2 : ℚ × ℚ
deriving DecidableEq

/-- Constant `Triangle::INTERSECT_EPS = 1e-8`. -/
def INTERSECT_EPS : ℚ := 1 / 100000000

/-- Method `Triangle::normal_at`: barycentric blend of the corner normals. -/
def Triangle.normal_at (tr : Triangle) (a b : ℚ) : Vec3 :=
  (1 - a - b) * tr.n0 + a * tr.n1 + b * tr.n2

/-- Method `Triangle::texel_at`: barycentric blend of the texture
coordinates, each component reduced with the Rust `% 1.0` remainder. -/
def Triangle.texel_at (tr : Triangle) (a b : ℚ) : Texel :=
  (fmodOne ((1 - a - b) * tr.t0.1 + a * tr.t1.1 + b * tr.t2.1),
   fmodOne ((1 - a - b) * tr.t0.2 + a * tr.t1.2 + b * tr.t2.2))

/-- Method `Triangle::has_intersection` (Möller–Trumbore). -/
def Triangle.has_intersection (tr : Triangle) (with_ : Ray) : Bool :=
  let e1 := tr.p1 - tr.p0
  let e2 := tr.p2 - tr.p0
  let dxe2 := with_.direction.cross e2
  let det := e1.dot dxe2
  if |det| < INTERSECT_EPS then false
  else
    let inv_det := 1 / det
    let s := with_.origin - tr.p0
    let a := s.dot dxe2 * inv_det
    if ¬(0 ≤ a ∧ a ≤ 1) then false
    else
      let sxe1 := s.cross e1
      let b := with_.direction.dot sxe1 * inv_det
      if b < 0 ∨ a + b > 1 then false
      else
        let t := e2.dot sxe1 * inv_det
        decide (with_.t_in_range t)

/-- Method `Triangle::intersection` (Möller–Trumbore): the hit
`(normal, texel, t)` when the determinant is large enough, the barycentric
coordinates lie in the triangle, and `t` is within the ray bounds. -/
def Triangle.intersection (tr : Triangle) (with_ : Ray) : Option (Vec3 × Texel × ℚ) :=
  let e1 := tr.p1 - tr.p0
  let e2 := tr.p2 - tr.p0
  let dxe2 := with_.direction.cross e2
  let det := e1.dot dxe2
  if |det| < INTERSECT_EPS then none
  else
    let inv_det := 1 / det
    let s := with_.origin - tr.p0
    let a := s.dot dxe2 * inv_det
    if ¬(0 ≤ a ∧ a ≤ 1) then none
    else
      let sxe1 := s.cross e1
      let b := with_.direction.dot sxe1 * inv_det
      if b < 0 ∨ a + b > 1 then none
      else
        let t := e2.dot sxe1 * inv_det
        if with_.t_in_range t then some (tr.normal_at a b, tr.texel_at a b, t) else none

/-- Struct `BoundingBox` from `src/objects/surface/mesh.rs` (axis-aligned
bounding box). -/
structure BoundingBox where
  minV : Vec3
  maxV : Vec3
deriving DecidableEq

/-- Method `BoundingBox::has_intersection` (Smits slab method). -/
def BoundingBox.has_intersection (bb : BoundingBox) (with_ : Ray) : Bool :=
  let tp : ℚ × ℚ :=
    if 0 ≤ with_.direction.x then
      ((bb.minV.x - with_.origin.x) / with_.direction.x,
       (bb.maxV.x - with_.origin.x) / with_.direction.x)
    else
      ((bb.maxV.x - with_.origin.x) / with_.direction.x,
       (bb.minV.x - with_.origin.x) / with_.direction.x)
  let typ : ℚ × ℚ :=
    if 0 ≤ with_.direction.y then
      ((bb.minV.y - with_.origin.y) / with_.direction.y,
       (bb.maxV.y - with_.origin.y) / with_.direction.y)
    else
      ((bb.maxV.y - with_.origin.y) / with_.direction.y,
       (bb.minV.y - with_.origin.y) / with_.direction.y)
  if tp.1 > typ.2 ∨ typ.1 > tp.2 then false
  else
    let tmin := fmax tp.1 typ.1
    let tmax := fmin tp.2 typ.2
    let tzp : ℚ × ℚ :=
      if 0 ≤ with_.direction.z then
        ((bb.minV.z - with_.origin.z) / with_.direction.z,
         (bb.maxV.z - with_.origin.z) / with_.direction.z)
      else
        ((bb.maxV.z - with_.origin.z) / with_.direction.z,
         (bb.minV.z - with_.origin.z) / with_.direction.z)
    if tmin > tzp.2 ∨ tzp.1 > tmax then false
    else
      let tmin := fmax tmin tzp.1
      let tmax := fmin tmax tzp.2
      decide ((tmin : WithTop ℚ) < with_.maxT) && decide (tmax > 0)

/-- Struct `Mesh` from `src/objects/surface/mesh.rs`: triangle soup plus a
precomputed bounding box. -/
structure Mesh where
  triangles : List Triangle
  bounding_box : BoundingBox
deriving DecidableEq

/-- Semantics of `Iterator::min_by` with a key of type `ℚ`: first minimal
element wins ties, as in Rust. -/
def minByQ {α : Type} (f : α → ℚ) (l : List α) : Option α :=
  l.foldl
    (fun acc x =>
      match acc with
      | none => some x
      | some a => if f x < f a then some x else acc)
    none

/-- Method `Mesh::has_intersection`: bounding box gate, then any triangle. -/
def Mesh.has_intersection (m : Mesh) (with_ : Ray) : Bool :=
  if m.bounding_box.has_intersection with_ then
    m.triangles.any (fun t => t.has_intersection with_)
  else false

/-- Method `Mesh::intersection`: bounding box gate, then the minimal-`t`
triangle hit. -/
def Mesh.intersection (m : Mesh) (with_ : Ray) : Option (ℚ × Vec3 × Texel) :=
  if ¬m.bounding_box.has_intersection with_ then none
  else
    (minByQ (fun x => x.2.2) (m.triangles.filterMap (fun t => t.intersection with_))).map
      (fun x => (x.2.2, x.1, x.2.1))

/-- Animation data of a julia set from `src/objects/surface/julia_set.rs`. -/
structure JuliaAnim where
  startc : Quat
  endc : Option Quat
deriving DecidableEq

/-- Struct `JuliaSet` from `src/objects/surface/julia_set.rs`.  The `fuel`
field is an artifact of the embedding: the ray-march `loop` of
`intersection_dist` has no bound in the source, so the model executes at
most `fuel` marching steps (the theorems below only evaluate runs that stop
well within the fuel). -/
structure JuliaSet where
  pos : Vec3
  c : Quat
  max_iterations : ℕ
  epsilon : ℚ
  animation : JuliaAnim
  fuel : ℕ
deriving DecidableEq

/-- Constant `JuliaSet::BOUNDING_RADIUS_2 = 2.5`. -/
def BOUNDING_RADIUS_2 : ℚ := 5 / 2

/-- Constant `JuliaSet::ESCAPE_THRESHOLD = 1e1`. -/
def ESCAPE_THRESHOLD : ℚ := 10

/-- Constant `JuliaSet::DEL = 1e-4`. -/
def DEL : ℚ := 1 / 10000

/-- Method `JuliaSet::set_frame`. -/
def JuliaSet.set_frame (j : JuliaSet) (w : ℚ) : JuliaSet :=
  match j.animation.endc with
  | some ec =>
      { j with
        c := ⟨lerpQ j.animation.startc.r ec.r w, lerpV j.animation.startc.v ec.v w⟩ }
  | none => j

/-- Loop body of `JuliaSet::iterate_intersect`: at most `n` more iterations
of `qp = (q * qp) * 2; q = q² + c`, breaking when `‖q‖²` escapes.  Returns
the final `(q, qp)`. -/
def JuliaSet.iterStep (c : Quat) : ℕ → Quat → Quat → Quat × Quat
  | 0, q, qp => (q, qp)
  | n + 1, q, qp =>
      let qp2 := (q.mul qp).scale 2
      let q2 := q.square + c
      if q2.length_squared > ESCAPE_THRESHOLD then (q2, qp2)
      else JuliaSet.iterStep c n q2 qp2

/-- Method `JuliaSet::iterate_intersect`: iterate the quaternion and its
derivative for `max_iterations` steps; returns the final `(q, qp)`. -/
def JuliaSet.iterate_intersect (j : JuliaSet) (q : Quat) : Quat × Quat :=
  JuliaSet.iterStep j.c j.max_iterations q (Quat.new 1 0 0 0)

/-- Marching loop of `JuliaSet::intersection_dist`, with explicit fuel (the
source `loop` is unbounded).  Each step computes the unbounded distance
estimate and advances the origin; the loop stops when the estimate drops
below epsilon or the point leaves the bounding sphere. -/
def JuliaSet.marchLoop (F : Fns) (j : JuliaSet) (dir : Vec3) : ℕ → Vec3 → ℚ × Vec3
  | 0, orig => (0, orig)
  | n + 1, orig =>
      let z0 := Quat.new orig.x orig.y orig.z 0
      let zzp := j.iterate_intersect z0
      let norm_z := zzp.1.length F
      let dist := 1 / 2 * norm_z * F.log2 norm_z / zzp.2.length F
      let orig2 := orig + dist * dir
      if dist < j.epsilon ∨ orig2.length_squared > BOUNDING_RADIUS_2 then (dist, orig2)
      else JuliaSet.marchLoop F j dir n orig2

/-- Method `JuliaSet::intersection_dist`. -/
def JuliaSet.intersection_dist (F : Fns) (j : JuliaSet) (with_ : Ray) : ℚ × Vec3 :=
  JuliaSet.marchLoop F j with_.direction j.fuel with_.origin

/-- Associated function `JuliaSet::sphere_intersect`: intersection with the
bounding sphere of squared radius `2.5` centered at the origin. -/
def JuliaSet.sphere_intersect (F : Fns) (with_ : Ray) : Option ℚ :=
  let a := with_.direction.length_squared
  let h := with_.direction.dot with_.origin
  let c := with_.origin.length_squared - BOUNDING_RADIUS_2
  let discr := h * h - a * c
  if discr < 0 then none
  else
    let discr := F.sqrt discr
    some (fmin (-h + discr) (-h - discr) / a)

/-- Iteration `g = g² + c` used by `JuliaSet::estimate_normal`. -/
def JuliaSet.sqIter (c : Quat) : ℕ → Quat → Quat
  | 0, g => g
  | n + 1, g => JuliaSet.sqIter c n (g.square + c)

/-- Method `JuliaSet::estimate_normal`: central differences of the iterated
quaternion lengths with perturbation `DEL`, normalized. -/
def JuliaSet.estimate_normal (F : Fns) (j : JuliaSet) (p : Vec3) : Vec3 :=
  let qp := Quat.new p.x p.y p.z 0
  let gx1 := JuliaSet.sqIter j.c j.max_iterations (qp - Quat.new DEL 0 0 0)
  let gx2 := JuliaSet.sqIter j.c j.max_iterations (qp + Quat.new DEL 0 0 0)
  let gy1 := JuliaSet.sqIter j.c j.max_iterations (qp - Quat.new 0 DEL 0 0)
  let gy2 := JuliaSet.sqIter j.c j.max_iterations (qp + Quat.new 0 DEL 0 0)
  let gz1 := JuliaSet.sqIter j.c j.max_iterations (qp - Quat.new 0 0 DEL 0)
  let gz2 := JuliaSet.sqIter j.c j.max_iterations (qp + Quat.new 0 0 DEL 0)
  Vec3.normal F
    ⟨gx2.length F - gx1.length F, gy2.length F - gy1.length F, gz2.length F - gz1.length F⟩

/-- Method `JuliaSet::has_intersection`. -/
def JuliaSet.has_intersection (F : Fns) (j : JuliaSet) (with_ : Ray) : Bool :=
  let w := Ray.new (with_.origin - j.pos) with_.direction
  match JuliaSet.sphere_intersect F w with
  | none => false
  | some t =>
      match w.at_t t with
      | none => false
      | some p =>
          let r := Ray.new p w.direction
          decide ((j.intersection_dist F r).1 < j.epsilon)

/-- Method `JuliaSet::intersection`.  Note the kernel rebuilds the ray with
`Ray::new`, so the internal bound is infinite, and the returned total
`t + dist` is not checked against the original bounds. -/
def JuliaSet.intersection (F : Fns) (j : JuliaSet) (with_ : Ray) : Option (ℚ × Vec3 × Texel) :=
  let w := Ray.new (with_.origin - j.pos) with_.direction
  match JuliaSet.sphere_intersect F w with
  | none => none
  | some t =>
      match w.at_t t with
      | none => none
      | some p =>
          let r := Ray.new p w.direction
          let dp := j.intersection_dist F r
          if dp.1 ≥ j.epsilon then none
          else some (t + dp.1, j.estimate_normal F dp.2, ((0 : ℚ), (0 : ℚ)))

/-- Enum `Object` from `src/objects/surface/mod.rs`. -/
inductive Object where
  | sphere (s : Sphere)
  | mesh (m : Mesh)
  | julia_set (j : JuliaSet)
deriving DecidableEq

/-- Kernel dispatch of `Surface::intersection` over the object enum. -/
def Object.intersection (F : Fns) (o : Object) (with_ : Ray) : Option (ℚ × Vec3 × Texel) :=
  match o with
  | Object.julia_set j => j.intersection F with_
  | Object.sphere s => s.intersection F with_
  | Object.mesh m => m.intersection with_

/-- Kernel dispatch of `Surface::has_intersection` over the object enum. -/
def Object.has_intersection (F : Fns) (o : Object) (with_ : Ray) : Bool :=
  match o with
  | Object.julia_set j => j.has_intersection F with_
  | Object.sphere s => s.has_intersection F with_
  | Object.mesh m => m.has_intersection with_

/-- Struct `Transform` from `src/objects/surface/mod.rs`: the inverse
transformation and the normal transformation (its transpose). -/
structure SurfaceTransform where
  transform : Mat4
  normal_transform : Mat4
deriving DecidableEq

/-- Struct `Surface` from `src/objects/surface/mod.rs`. -/
structure Surface where
  obj : Object
  transform : Option SurfaceTransform
  material : Material
deriving DecidableEq

/-- Struct `Intersection` from `src/objects/surface/intersection.rs`.  The
borrowed material reference is embedded by value. -/
structure Intersection where
  point : Vec3
  t : ℚ
  normal : Vec3
  texel : Texel
  material : Material
deriving DecidableEq

/-- Method `Surface::has_intersection`: the ray is rewritten with the inverse
transform (when present) before the kernel test. -/
def Surface.has_intersection (F : Fns) (s : Surface) (with_ : Ray) : Bool :=
  let w := match s.transform with
    | some t => with_.transform t.transform
    | none => with_
  s.obj.has_intersection F w

/-- Method `Surface::intersection`: kernel on the rewritten ray, normal
rewritten with the normal transform and normalized, point evaluated with
`Ray::at` on the original ray. -/
def Surface.intersection (F : Fns) (s : Surface) (with_ : Ray) : Option Intersection :=
  let original_ray := with_
  let w := match s.transform with
    | some t => with_.transform t.transform
    | none => with_
  match s.obj.intersection F w with
  | none => none
  | some (t, normal, texel) =>
      let normal := match s.transform with
        | some tr => Vec3.normal F (tr.normal_transform.transform_vector normal)
        | none => Vec3.normal F normal
      match original_ray.at_t t with
      | none => none
      | some point => some ⟨point, t, normal, texel, s.material⟩

/-- Method `Surface::frame_perc`: forward the frame percentage to the
animated primitive. -/
def Surface.frame_perc (s : Surface) (w : ℚ) : Surface :=
  match s.obj with
  | Object.sphere sp => { s with obj := Object.sphere (sp.set_frame w) }
  | Object.julia_set j => { s with obj := Object.julia_set (j.set_frame w) }
  | Object.mesh _ => s

/-- Method `Intersection::get_color`. -/
def Intersection.get_color (F : Fns) (i : Intersection) (light : Light) (ray : Ray) : Vec3 :=
  i.material.get_color F i.point i.normal light i.texel ray

/-- Method `Intersection::reflected_ray`: reflect the ray direction at the
normal, origin offset by `BIAS` along the reflected direction. -/
def Intersection.reflected_ray (i : Intersection) (ray : Ray) : Ray :=
  let dir := Vec3.reflect ray.direction i.normal
  Ray.new (i.point + BIAS * dir) dir

/-- Method `Intersection::refracted_ray`: Snell refraction, `None` on total
internal reflection. -/
def Intersection.refracted_ray (F : Fns) (i : Intersection) (ray : Ray) : Option Ray :=
  let v := ray.direction
  let n0 := i.normal
  let n_dot_v0 := n0.dot v
  let n := if n_dot_v0 < 0 then n0 else -n0
  let n_dot_v := if n_dot_v0 < 0 then -n_dot_v0 else n_dot_v0
  let n1_nt := if n_dot_v0 < 0 then 1 / i.material.refraction else i.material.refraction
  let discr := 1 - n1_nt * n1_nt * (1 - n_dot_v * n_dot_v)
  if discr < 0 then none
  else
    let t := n1_nt * (v + n * n_dot_v) - n * F.sqrt discr
    some (Ray.new (i.point + BIAS * t) t)

/-- Method `Intersection::get_reflectance`. -/
def Intersection.get_reflectance (i : Intersection) : ℚ := i.material.reflectance

/-- Method `Intersection::get_transmittance`. -/
def Intersection.get_transmittance (i : Intersection) : ℚ := i.material.transmittance

/-- Struct `Camera` from `src/objects/camera.rs`. -/
structure Camera where
  height : ℚ
  width : ℚ
  fov_t : ℚ
  aspect : ℚ
  max_bounces : ℕ
  transform : Mat4
  dof : Option (ℚ × ℚ)
deriving DecidableEq

/-- Constructor `Camera::new`: note `fov_t = fov_x.tan()` of the full
argument angle, and `aspect = vertical / horizontal`. -/
def Camera.new (F : Fns) (pos lookat up : Vec3) (fov_x : ℚ) (horizontal vertical : ℕ)
    (max_bounces : ℕ) : Camera :=
  ⟨(vertical : ℚ), (horizontal : ℚ), F.tan fov_x, (vertical : ℚ) / (horizontal : ℚ),
    max_bounces, Mat4.look_at F pos lookat up, none⟩

/-- Method `Camera::compute_camera_ray`.  The two `rand::random_range` draws
of the depth-of-field branch are passed in as the parameters `jx` and `jy`. -/
def Camera.compute_camera_ray (F : Fns) (cam : Camera) (u v : ℚ) (jx jy : ℚ) : Ray :=
  let x := ((2 * u + 1) / cam.width - 1) * cam.fov_t
  let y := ((2 * v + 1) / cam.height - 1) * cam.fov_t * cam.aspect
  let pcamera : Vec3 := ⟨x, y, -1⟩
  let orig := Vec3.zero
  match cam.dof with
  | some (focal_distance, aperture) =>
      let focal_point := focal_distance * pcamera
      let orig := orig + (⟨jx, jy, 0⟩ : Vec3)
      let _ := aperture
      let dir := focal_point - orig
      ((Ray.new orig dir).transform cam.transform).normal F
  | none => ((Ray.new orig pcamera).transform cam.transform).normal F

/-- Method `Camera::get_ray_through` (pixel indices cast to `f32`). -/
def Camera.get_ray_through (F : Fns) (cam : Camera) (u v : ℕ) : Ray :=
  cam.compute_camera_ray F (u : ℚ) (v : ℚ) 0 0

/-- Animation state of a scene from `src/objects/scene.rs`. -/
structure Animated where
  total_frames : ℕ
  curr_frame : ℕ
  fps : ℕ
deriving DecidableEq

/-- Struct `Scene` from `src/objects/scene.rs` (the output file name is
omitted from the embedding). -/
structure Scene where
  background_color : Vec3
  samples : ℕ
  camera : Camera
  lights : List Light
  surfaces : List Surface
  animated : Animated
deriving DecidableEq

/-- Constructor `Scene::new`: no supersampling, one frame, current frame 1. -/
def Scene.new (background_color : Vec3) (camera : Camera) (lights : List Light)
    (surfaces : List Surface) : Scene :=
  ⟨background_color, 0, camera, lights, surfaces, ⟨1, 1, 1⟩⟩

/-- Method `Scene::set_animation`. -/
def Scene.set_animation (s : Scene) (frames fps : ℕ) : Scene :=
  { s with animated := { s.animated with total_frames := frames, fps := fps } }

/-- Method `Scene::next_frame`: advance the frame counter and push the new
frame percentage `curr_frame / total_frames` to every surface. -/
def Scene.next_frame (s : Scene) : Scene :=
  let curr := s.animated.curr_frame + 1
  let w : ℚ := (curr : ℚ) / (s.animated.total_frames : ℚ)
  { s with
    animated := { s.animated with curr_frame := curr },
    surfaces := s.surfaces.map (fun sf => sf.frame_perc w) }

/-- State of the scene when the 1-based frame `k + 1` is rendered: the
driver in `main.rs` calls `Scene::next_frame` after each rendered frame. -/
def Scene.afterFrames (s : Scene) : ℕ → Scene
  | 0 => s
  | k + 1 => (s.afterFrames k).next_frame

/-- Method `Scene::intersects_any`. -/
def Scene.intersects_any (F : Fns) (s : Scene) (with_ : Ray) : Bool :=
  s.surfaces.any (fun surface => surface.has_intersection F with_)

/-- Method `Scene::closest_intersection`: minimal-`t` surface intersection. -/
def Scene.closest_intersection (F : Fns) (s : Scene) (with_ : Ray) : Option Intersection :=
  minByQ (fun i => i.t) (s.surfaces.filterMap (fun surface => surface.intersection F with_))

/-- Semantics of `Iterator::reduce` with `+` followed by
`unwrap_or(Color::zero())`. -/
def reduceAdd (l : List Vec3) : Vec3 :=
  match l with
  | [] => Vec3.zero
  | c :: cs => cs.foldl (· + ·) c

/-- Method `Scene::intersection_color`: sum of the colors of the lights whose
shadow ray does not intersect any surface. -/
def Scene.intersection_color (F : Fns) (s : Scene) (intersect : Intersection) (ray : Ray) :
    Vec3 :=
  reduceAdd
    ((s.lights.filter
        (fun light =>
          match light.shadow_ray F intersect.point with
          | none => true
          | some sr => !s.intersects_any F sr)).map
      (fun light => intersect.get_color F light ray))

/-- Method `Scene::recursive_trace`.  In this snapshot `scene.rs` still
passes the refracted ray directly while `Intersection::refracted_ray`
returns an `Option`; per the specification a total-internal-reflection
`None` contributes zero. -/
def Scene.recursive_trace (F : Fns) (s : Scene) : ℕ → Ray → Vec3
  | 0, ray =>
      match s.closest_intersection F ray with
      | some intersection => s.intersection_color F intersection ray
      | none => s.background_color
  | depth + 1, ray =>
      match s.closest_intersection F ray with
      | some intersection =>
          let color := s.intersection_color F intersection ray
          let reflected_color :=
            if intersection.get_reflectance > 0 then
              s.recursive_trace F depth (intersection.reflected_ray ray)
            else Vec3.zero
          let refracted_color :=
            if intersection.get_transmittance > 0 then
              match intersection.refracted_ray F ray with
              | some rr => s.recursive_trace F depth rr
              | none => Vec3.zero
            else Vec3.zero
          color * fmax (1 - intersection.get_reflectance - intersection.get_transmittance) 0 +
            reflected_color * intersection.get_reflectance +
            refracted_color * intersection.get_transmittance
      | none => s.background_color

/-- Coordinate step of `Image::par_init_pixels`: advance `x` within a row of
width `w`, wrapping to the next row (`w - 1` is the saturating `u32`
subtraction, the source assumes `w > 0`). -/
def coordStep (w : ℕ) (s : ℕ × ℕ) : ℕ × ℕ :=
  if s.1 < w - 1 then (s.1 + 1, s.2) else (0, s.2 + 1)

/-- Coordinate list generated by the stateful `map` of
`Image::par_init_pixels`: each buffer cell is mapped to the state after its
increment. -/
def coordsAux (w : ℕ) : ℕ → ℕ × ℕ → List (ℕ × ℕ)
  | 0, _ => []
  | n + 1, s =>
      let s2 := coordStep w s
      s2 :: coordsAux w n s2

/-- Coordinates passed to the per-pixel closure by `Image::par_init_pixels`
for a buffer of `n` cells, starting from `x = 0, y = 0`. -/
def initCoords (w : ℕ) (n : ℕ) : List (ℕ × ℕ) := coordsAux w n (0, 0)

/-- Method `Image::par_init_pixels`: replace the frame with the closure
mapped over the generated coordinates (the rayon collect preserves order). -/
def Image.par_init_pixels (img : Image) (frame : ℕ) (op : ℕ × ℕ → Rgb) : Image :=
  { img with
    buf := img.buf.set frame ((initCoords img.width (img.buf.getD frame []).length).map op) }

/-- Visibility predicate of the specification trace loop: a hit is lit by a
light iff the light's shadow ray (when any) intersects no surface. -/
def Scene.visibleSpec (F : Fns) (s : Scene) (light : Light) (point : Vec3) : Bool :=
  match light.shadow_ray F point with
  | none => true
  | some sr => !s.intersects_any F sr

/-- Local lighting term of the specification trace loop: the sum over all
lights of the shaded color when visible and zero otherwise. -/
def Scene.localSpec (F : Fns) (s : Scene) (hit : Intersection) (ray : Ray) : Vec3 :=
  (s.lights.map
      (fun light =>
        if s.visibleSpec F light hit.point then hit.get_color F light ray else Vec3.zero)).foldr
    (· + ·) Vec3.zero

/-- Trace function written from the words of the specification:
return the background on a miss; the local sum at depth zero; otherwise
`local · max(1 − r − τ, 0) + refl · r + refr · τ` where the reflected ray is
traced only when `r > 0` and the refracted ray only when `τ > 0` (zero
contribution otherwise, also on total internal reflection). -/
def Scene.traceSpec (F : Fns) (s : Scene) : ℕ → Ray → Vec3
  | 0, ray =>
      match s.closest_intersection F ray with
      | none => s.background_color
      | some hit => s.localSpec F hit ray
  | depth + 1, ray =>
      match s.closest_intersection F ray with
      | none => s.background_color
      | some hit =>
          let localc := s.localSpec F hit ray
          let refl :=
            if hit.get_reflectance > 0 then s.traceSpec F depth (hit.reflected_ray ray)
            else Vec3.zero
          let refr :=
            if hit.get_transmittance > 0 then
              match hit.refracted_ray F ray with
              | some rr => s.traceSpec F depth rr
              | none => Vec3.zero
            else Vec3.zero
          localc * fmax (1 - hit.get_reflectance - hit.get_transmittance) 0 +
            refl * hit.get_reflectance + refr * hit.get_transmittance

/-- Refraction written from the words of the specification: with
`c₁ = |n · v|`, entering (`n · v < 0`) uses `η' = 1/η` and the normal as is,
exiting flips the normal and uses `η' = η`; `k = 1 − η'²(1 − c₁²)`; `None`
exactly when `k < 0`, else direction `η'(v + n c₁) − n √k` with the origin
offset by `BIAS` along it. -/
def refracted_ray_spec (F : Fns) (i : Intersection) (ray : Ray) : Option Ray :=
  let v := ray.direction
  let c1 := |i.normal.dot v|
  let n := if i.normal.dot v < 0 then i.normal else -i.normal
  let eta := if i.normal.dot v < 0 then 1 / i.material.refraction else i.material.refraction
  let k := 1 - eta * eta * (1 - c1 * c1)
  if k < 0 then none
  else
    let t := eta * (v + n * c1) - n * F.sqrt k
    some (Ray.new (i.point + BIAS * t) t)

/-- The camera-space primary ray as the claim words it, with the half-angle
tangent `tan(fov_x / 2)`. -/
def compute_camera_ray_spec (F : Fns) (width height fov_x : ℚ) (u v : ℚ) : Ray :=
  let x := ((2 * u + 1) / width - 1) * F.tan (fov_x / 2)
  let y := ((2 * v + 1) / height - 1) * F.tan (fov_x / 2) * (height / width)
  Ray.new Vec3.zero ⟨x, y, -1⟩

/-- Unfolding lemma for vector addition. -/
theorem Vec3.add_def (a b : Vec3) : a + b = ⟨a.x + b.x, a.y + b.y, a.z + b.z⟩ := rfl

/-- Unfolding lemma for the zero vector. -/
theorem Vec3.zero_def : (Vec3.zero : Vec3) = ⟨0, 0, 0⟩ := rfl

/-- Associativity of vector addition. -/
theorem Vec3.add_assoc (a b c : Vec3) : a + b + c = a + (b + c) := by
  simp [Vec3.add_def]
  refine ⟨by ring, by ring, by ring⟩

/-- Left identity of vector addition. -/
theorem Vec3.zero_add (a : Vec3) : Vec3.zero + a = a := by
  simp [Vec3.add_def, Vec3.zero_def]

/-- Right identity of vector addition. -/
theorem Vec3.add_zero (a : Vec3) : a + Vec3.zero = a := by
  simp [Vec3.add_def, Vec3.zero_def]

/-- Folding vector sums from the left equals prepending to a right fold. -/
theorem foldl_add_vec (cs : List Vec3) (c : Vec3) :
    cs.foldl (· + ·) c = c + cs.foldr (· + ·) Vec3.zero := by
  induction cs generalizing c with
  | nil => simp [Vec3.add_zero]
  | cons d ds ih =>
      simp only [List.foldl_cons, List.foldr_cons]
      rw [ih (c + d), Vec3.add_assoc]

/-- The reduce of `Scene::intersection_color` over a filtered map equals the
specification sum of conditional contributions. -/
theorem reduceAdd_filter_map (p : Light → Bool) (f : Light → Vec3) (l : List Light) :
    reduceAdd ((l.filter p).map f) =
      (l.map (fun L => if p L then f L else Vec3.zero)).foldr (· + ·) Vec3.zero := by
  have main : ∀ l : List Light,
      ((l.filter p).map f).foldr (· + ·) Vec3.zero =
        (l.map (fun L => if p L then f L else Vec3.zero)).foldr (· + ·) Vec3.zero := by
    intro l
    induction l with
    | nil => rfl
    | cons L ls ih =>
        by_cases h : p L
        · simp only [List.filter_cons, h, if_pos, List.map_cons, List.foldr_cons, ih]
        · simp only [List.filter_cons, h, List.map_cons, List.foldr_cons, ih,
            Bool.false_eq_true, if_false, cond_false]
          rw [Vec3.zero_add]
  rw [← main]
  cases hm : (l.filter p).map f with
  | nil => rfl
  | cons c cs =>
      show cs.foldl (· + ·) c = _
      rw [foldl_add_vec]
      rfl

/-- Characterization of `minByQ`: some result exactly on a nonempty list,
and the result is a member attaining the minimum key. -/
theorem minByQ_spec {α : Type} (f : α → ℚ) (l : List α) :
    (minByQ f l = none ↔ l = []) ∧
      ∀ a, minByQ f l = some a → a ∈ l ∧ ∀ b ∈ l, f a ≤ f b := by
  have go : ∀ (l : List α) (a0 : α),
      ∃ r,
        l.foldl
            (fun acc x =>
              match acc with
              | none => some x
              | some a => if f x < f a then some x else acc)
            (some a0) = some r ∧
          (r = a0 ∨ r ∈ l) ∧ f r ≤ f a0 ∧ ∀ b ∈ l, f r ≤ f b := by
    intro l
    induction l with
    | nil => intro a0; exact ⟨a0, rfl, Or.inl rfl, le_refl _, by simp⟩
    | cons x xs ih =>
        intro a0
        by_cases h : f x < f a0
        · obtain ⟨r, hr, hmem, hle, hall⟩ := ih x
          refine ⟨r, ?_, ?_, ?_, ?_⟩
          · simpa [h] using hr
          · rcases hmem with h1 | h1
            · exact Or.inr (by simp [h1])
            · exact Or.inr (by simp [h1])
          · exact le_trans hle (le_of_lt h)
          · intro b hb
            rcases List.mem_cons.mp hb with rfl | hb2
            · exact le_trans hle (le_refl _)
            · exact hall b hb2
        · obtain ⟨r, hr, hmem, hle, hall⟩ := ih a0
          refine ⟨r, ?_, ?_, hle, ?_⟩
          · simpa [h] using hr
          · rcases hmem with h1 | h1
            · exact Or.inl h1
            · exact Or.inr (by simp [h1])
          · intro b hb
            rcases List.mem_cons.mp hb with rfl | hb2
            · exact le_trans hle (not_lt.mp h)
            · exact hall b hb2
  constructor
  · cases l with
    | nil => simp [minByQ]
    | cons x xs =>
        constructor
        · intro h
          obtain ⟨r, hr, _, _, _⟩ := go xs x
          rw [show minByQ f (x :: xs) = xs.foldl _ (some x) from rfl] at h
          rw [h] at hr
          exact absurd hr (by simp)
        · intro h
          exact absurd h (by simp)
  · intro a ha
    cases l with
    | nil => simp [minByQ] at ha
    | cons x xs =>
        obtain ⟨r, hr, hmem, hle, hall⟩ := go xs x
        rw [show minByQ f (x :: xs) = xs.foldl _ (some x) from rfl] at ha
        rw [ha] at hr
        obtain rfl : a = r := Option.some.inj hr
        constructor
        · rcases hmem with h1 | h1
          · simp [h1]
          · simp [h1]
        · intro b hb
          rcases List.mem_cons.mp hb with rfl | hb2
          · exact hle
          · exact hall b hb2

/-- Transforming a ray keeps its bound, so range checks agree. -/
theorem Ray.transform_maxT (r : Ray) (m : Mat4) : (r.transform m).maxT = r.maxT := rfl

/-- Unfolding of `Ray::at` on a successful lookup. -/
theorem Ray.at_t_eq_some_iff (r : Ray) (t : ℚ) (p : Vec3) :
    r.at_t t = some p ↔ r.t_in_range t ∧ p = r.origin + t * r.direction := by
  unfold Ray.at_t
  split_ifs with h
  · constructor
    · intro hp
      exact ⟨h, (Option.some.inj hp).symm⟩
    · intro ⟨_, hp⟩
      rw [hp]
  · constructor
    · intro hp
      exact absurd hp (by simp)
    · intro ⟨h1, _⟩
      exact absurd h1 h

/-- The lookup `Ray::at` is `Some` exactly on parameters within the bounds. -/
theorem Ray.at_t_isSome_iff (r : Ray) (t : ℚ) :
    (r.at_t t).isSome = true ↔ r.t_in_range t := by
  unfold Ray.at_t
  split_ifs with h <;> simp [h]

/-- Every hit produced by the triangle kernel has its parameter within the
bounds of the tested ray. -/
theorem Triangle.tri_hit_t_in_range (tr : Triangle) (w : Ray) (x : Vec3 × Texel × ℚ)
    (h : tr.intersection w = some x) : w.t_in_range x.2.2 := by
  unfold Triangle.intersection at h
  dsimp only at h
  split_ifs at h with h1 h2 h3 h4
  obtain rfl := Option.some.inj h.symm
  exact h4

/-- Every hit produced by the sphere kernel has its parameter within the
bounds of the tested ray. -/
theorem Sphere.sph_hit_t_in_range (F : Fns) (s : Sphere) (w : Ray) (x : ℚ × Vec3 × Texel)
    (h : s.intersection F w = some x) : w.t_in_range x.1 := by
  unfold Sphere.intersection Sphere.intersection_coefficients at h
  dsimp only at h
  split_ifs at h with h1 h2
  · split at h
    · exact absurd h (by simp)
    · rename_i point hat
      obtain rfl := Option.some.inj h.symm
      exact ((Ray.at_t_eq_some_iff w _ point).mp hat).1
  · split at h
    · exact absurd h (by simp)
    · rename_i point hat
      obtain rfl := Option.some.inj h.symm
      exact ((Ray.at_t_eq_some_iff w _ point).mp hat).1

/-- Every hit produced by the mesh kernel has its parameter within the
bounds of the tested ray. -/
theorem Mesh.mesh_hit_t_in_range (m : Mesh) (w : Ray) (x : ℚ × Vec3 × Texel)
    (h : m.intersection w = some x) : w.t_in_range x.1 := by
  unfold Mesh.intersection at h
  split_ifs at h with h1
  revert h
  cases hmin : minByQ (fun y => y.2.2) (m.triangles.filterMap (fun t => t.intersection w)) with
  | none => intro h; exact absurd h (by simp)
  | some y =>
      intro h
      rw [Option.map_some'] at h
      obtain rfl := Option.some.inj h.symm
      have hymem := ((minByQ_spec (fun y => y.2.2) _).2 y hmin).1
      obtain ⟨tri, _, htri⟩ := List.mem_filterMap.mp hymem
      exact Triangle.tri_hit_t_in_range tri w y htri

/-- Every intersection returned by a surface has its parameter within the
bounds of the original world-space ray. -/
theorem Surface.surf_hit_t_in_range (F : Fns) (s : Surface) (R : Ray) (i : Intersection)
    (h : s.intersection F R = some i) : R.t_in_range i.t := by
  unfold Surface.intersection at h
  dsimp only at h
  split at h
  · exact absurd h (by simp)
  · rename_i t n uv heq
    split at h
    · exact absurd h (by simp)
    · rename_i point hat
      obtain rfl := Option.some.inj h.symm
      exact ((Ray.at_t_eq_some_iff R t point).mp hat).1

/-- The Rust remainder `x % 1.0` lies strictly between `-1` and `1`. -/
theorem fmodOne_bounds (x : ℚ) : -1 < fmodOne x ∧ fmodOne x < 1 := by
  unfold fmodOne truncQ
  split_ifs with h
  · have h1 := Int.floor_le x
    have h2 := Int.lt_floor_add_one x
    constructor <;> linarith
  · have h1 := Int.ceil_lt_add_one x
    have h2 := Int.le_ceil x
    constructor <;> linarith

/-- Saturating cast bound: for `u < 1` the pixel column is within the
image width. -/
theorem f32toU32_lt (u : ℚ) (w : ℕ) (hw : 0 < w) (hu : u < 1) :
    f32toU32 (u * (w : ℚ)) < w := by
  unfold f32toU32
  split_ifs with h
  · exact hw
  · push_neg at h
    have hww : (0 : ℚ) < (w : ℚ) := by exact_mod_cast hw
    have huw : u * (w : ℚ) < (w : ℚ) := by
      calc u * (w : ℚ) < 1 * (w : ℚ) := mul_lt_mul_of_pos_right hu hww
        _ = (w : ℚ) := one_mul _
    have hfl : ⌊u * (w : ℚ)⌋ < (w : ℤ) := by
      rw [Int.floor_lt]
      exact_mod_cast huw
    have htn : ⌊u * (w : ℚ)⌋.toNat < w := by omega
    exact lt_of_le_of_lt (Nat.min_le_left _ _) htn

/-- One coordinate step advances the pair `(k % w, k / w)` to
`((k+1) % w, (k+1) / w)`. -/
theorem coordStep_mod (w k : ℕ) (hw : 0 < w) :
    coordStep w (k % w, k / w) = ((k + 1) % w, (k + 1) / w) := by
  unfold coordStep
  by_cases hlt : k % w < w - 1
  · have hlt2 : k % w + 1 < w := by omega
    have hk := Nat.div_add_mod k w
    have hk2 : k + 1 = k % w + 1 + w * (k / w) := by omega
    simp only [hlt, if_true]
    rw [hk2, Nat.add_mul_mod_self_left, Nat.add_mul_div_left _ _ hw, Nat.mod_eq_of_lt hlt2,
      Nat.div_eq_of_lt hlt2]
    simp
  · have hmod : k % w = w - 1 := by
      have := Nat.mod_lt k hw
      omega
    have hk := Nat.div_add_mod k w
    have hk2 : k + 1 = w * (k / w) + w := by omega
    simp only [hlt, if_false]
    rw [hk2, Nat.mul_add_mod, Nat.mod_self, Nat.mul_add_div hw, Nat.div_self hw]

/-- Closed form of the stateful coordinate generation: starting from the
state of index `k`, the generated list enumerates the states of the next `n`
indices. -/
theorem coordsAux_formula (w : ℕ) (hw : 0 < w) :
    ∀ (n k : ℕ),
      coordsAux w n (k % w, k / w) =
        (List.range n).map (fun i => ((k + i + 1) % w, (k + i + 1) / w)) := by
  intro n
  induction n with
  | zero => intro k; rfl
  | succ n ih =>
      intro k
      have hstep := coordStep_mod w k hw
      have hrec := ih (k + 1)
      unfold coordsAux
      dsimp only
      rw [hstep, hrec, List.range_succ_eq_map, List.map_cons, List.map_map]
      refine List.cons_eq_cons.mpr ⟨by norm_num, ?_⟩
      apply List.map_congr_left
      intro i _
      have he : k + 1 + i + 1 = k + (i + 1) + 1 := by omega
      show ((k + 1 + i + 1) % w, (k + 1 + i + 1) / w) = ((k + (i + 1) + 1) % w, (k + (i + 1) + 1) / w)
      rw [he]

/-- Closed form of the coordinates passed by `Image::par_init_pixels`: the
cell of 0-based buffer index `i` receives `((i+1) % w, (i+1) / w)`. -/
theorem initCoords_formula (w n : ℕ) (hw : 0 < w) :
    initCoords w n = (List.range n).map (fun i => ((i + 1) % w, (i + 1) / w)) := by
  unfold initCoords
  have h0 : ((0 : ℕ) % w, 0 / w) = ((0 : ℕ), (0 : ℕ)) := by simp
  rw [← h0, coordsAux_formula w hw n 0]
  simp

/-- Iterating `Scene::next_frame` preserves the total frame count and
advances the current frame counter by one per call. -/
theorem Scene.afterFrames_anim (s : Scene) (k : ℕ) :
    (s.afterFrames k).animated.total_frames = s.animated.total_frames ∧
      (s.afterFrames k).animated.curr_frame = s.animated.curr_frame + k := by
  induction k with
  | zero => exact ⟨rfl, rfl⟩
  | succ k ih =>
      unfold Scene.afterFrames Scene.next_frame
      refine ⟨ih.1, ?_⟩
      show (s.afterFrames k).animated.curr_frame + 1 = _
      omega

/-- After `k ≥ 1` frame advances, an animated sphere holds exactly the lerp
of its start and end parameters at weight `(curr_frame + k) / total_frames`;
its animation record, transform and material are untouched. -/
theorem Scene.afterFrames_sphere (s : Scene) (j : ℕ) (surf : Surface) (sp : Sphere)
    (e : Vec3 × ℚ) (hj : s.surfaces.get? j = some surf) (hobj : surf.obj = Object.sphere sp)
    (hend : sp.animation.endP = some e) :
    ∀ k, 1 ≤ k →
      (s.afterFrames k).surfaces.get? j =
        some
          { surf with
            obj :=
              Object.sphere
                { center :=
                    lerpV sp.animation.start.1 e.1
                      (((s.animated.curr_frame + k : ℕ) : ℚ) / (s.animated.total_frames : ℚ)),
                  radius :=
                    lerpQ sp.animation.start.2 e.2
                      (((s.animated.curr_frame + k : ℕ) : ℚ) / (s.animated.total_frames : ℚ)),
                  animation := sp.animation } } := by
  intro k
  induction k with
  | zero => intro hk; exact absurd hk (by omega)
  | succ k ih =>
      intro _
      by_cases hk1 : 1 ≤ k
      · have ihk := ih hk1
        have hanim := s.afterFrames_anim k
        show (s.afterFrames k).next_frame.surfaces.get? j = _
        unfold Scene.next_frame
        dsimp only
        rw [List.get?_map, ihk, Option.map_some']
        unfold Surface.frame_perc
        dsimp only
        unfold Sphere.set_frame
        dsimp only
        rw [hend]
        dsimp only
        rw [hanim.1, hanim.2]
        have hcast : s.animated.curr_frame + k + 1 = s.animated.curr_frame + (k + 1) := by omega
        rw [hcast]
      · have hk0 : k = 0 := by omega
        subst hk0
        show (s.afterFrames 0).next_frame.surfaces.get? j = _
        unfold Scene.afterFrames Scene.next_frame
        dsimp only
        rw [List.get?_map, hj, Option.map_some']
        unfold Surface.frame_perc
        rw [hobj]
        dsimp only
        unfold Sphere.set_frame
        rw [hend]

/-- The filtered reduce of `Scene::intersection_color` equals the visibility
conditional sum of the specification. -/
theorem Scene.intersection_color_eq_localSpec (F : Fns) (s : Scene) (i : Intersection)
    (ray : Ray) : s.intersection_color F i ray = s.localSpec F i ray := by
  unfold Scene.intersection_color Scene.localSpec Scene.visibleSpec
  rw [reduceAdd_filter_map]

/-- Claim C2: for every ray and depth, the recursive trace of the source
equals the specification trace: background on a miss; at depth 0 the local
light sum only; at positive depth
`local · max(1 − r − τ, 0) + refl · r + refr · τ`, the reflected ray traced
with depth − 1 only when the reflectance is positive and the refracted ray
only when the transmittance is positive, the contribution being zero
otherwise. -/
theorem C2_recursive_trace_eq_traceSpec (F : Fns) (s : Scene) (d : ℕ) (ray : Ray) :
    s.recursive_trace F d ray = s.traceSpec F d ray := by
  induction d generalizing ray with
  | zero =>
      cases hc : s.closest_intersection F ray with
      | none =>
          unfold Scene.recursive_trace Scene.traceSpec
          rw [hc]
      | some i =>
          unfold Scene.recursive_trace Scene.traceSpec
          rw [hc]
          exact s.intersection_color_eq_localSpec F i ray
  | succ d ih =>
      cases hc : s.closest_intersection F ray with
      | none =>
          unfold Scene.recursive_trace Scene.traceSpec
          rw [hc]
      | some i =>
          unfold Scene.recursive_trace Scene.traceSpec
          rw [hc]
          dsimp only
          rw [Scene.intersection_color_eq_localSpec]
          simp only [ih]

/-- Claim C1 (amended): a surface intersection is `Some` exactly when the
kernel applied to the rewritten ray returns a hit whose `t` also lies within
`[0, max_t]` of the original ray (automatic for the sphere and mesh
kernels); the intersection then carries the kernel's `t`, the point
`R.at(t)` of the original world-space ray, the normalized image of the
object normal under the normal transform (the object normal passing through
unchanged when there is no transform), the kernel texel and the surface
material. -/
theorem C1_surface_intersection_characterization (F : Fns) (s : Surface) (R : Ray) :
    (∀ i : Intersection,
        s.intersection F R = some i ↔
          ∃ t n uv,
            s.obj.intersection F
                (match s.transform with
                | some tr => R.transform tr.transform
                | none => R) = some (t, n, uv) ∧
              R.t_in_range t ∧
              i = ⟨R.origin + t * R.direction, t,
                    match s.transform with
                    | some tr => Vec3.normal F (tr.normal_transform.transform_vector n)
                    | none => Vec3.normal F n,
                    uv, s.material⟩) ∧
      (∀ sp : Sphere, s.obj = Object.sphere sp →
          ((s.intersection F R).isSome ↔
            (s.obj.intersection F
                (match s.transform with
                | some tr => R.transform tr.transform
                | none => R)).isSome)) ∧
      (∀ m : Mesh, s.obj = Object.mesh m →
          ((s.intersection F R).isSome ↔
            (s.obj.intersection F
                (match s.transform with
                | some tr => R.transform tr.transform
                | none => R)).isSome)) := by
  have partA : ∀ i : Intersection,
      s.intersection F R = some i ↔
        ∃ t n uv,
          s.obj.intersection F
              (match s.transform with
              | some tr => R.transform tr.transform
              | none => R) = some (t, n, uv) ∧
            R.t_in_range t ∧
            i = ⟨R.origin + t * R.direction, t,
                  match s.transform with
                  | some tr => Vec3.normal F (tr.normal_transform.transform_vector n)
                  | none => Vec3.normal F n,
                  uv, s.material⟩ := by
    intro i
    constructor
    · intro h
      unfold Surface.intersection at h
      dsimp only at h
      split at h
      · exact absurd h (by simp)
      · rename_i t n uv heq
        split at h
        · exact absurd h (by simp)
        · rename_i point hat
          obtain rfl := Option.some.inj h
          obtain ⟨hrange, hpoint⟩ := (Ray.at_t_eq_some_iff R t point).mp hat
          exact ⟨t, n, uv, heq, hrange, by rw [← hpoint]⟩
    · intro hex
      obtain ⟨t, n, uv, hk, hrange, hi⟩ := hex
      unfold Surface.intersection
      dsimp only
      rw [hk]
      have hat : R.at_t t = some (R.origin + t * R.direction) := by
        unfold Ray.at_t
        rw [if_pos hrange]
      dsimp only
      rw [hat]
      dsimp only
      rw [hi]
  have hwr : ∀ t : ℚ,
      (match s.transform with
        | some tr => R.transform tr.transform
        | none => R).t_in_range t →
        R.t_in_range t := by
    intro t
    cases s.transform with
    | none => exact id
    | some tr => exact id
  refine ⟨partA, ?_, ?_⟩
  · intro sp hsp
    constructor
    · intro hs
      obtain ⟨i, hi⟩ := Option.isSome_iff_exists.mp hs
      obtain ⟨t, n, uv, hk, _, _⟩ := (partA i).mp hi
      rw [hk]
      rfl
    · intro hk
      obtain ⟨x, hx⟩ := Option.isSome_iff_exists.mp hk
      have hrangew : (match s.transform with
          | some tr => R.transform tr.transform
          | none => R).t_in_range x.1 := by
        rw [hsp] at hx
        exact Sphere.sph_hit_t_in_range F sp _ x hx
      apply Option.isSome_iff_exists.mpr
      exact ⟨_, (partA _).mpr ⟨x.1, x.2.1, x.2.2, hx, hwr x.1 hrangew, rfl⟩⟩
  · intro m hm
    constructor
    · intro hs
      obtain ⟨i, hi⟩ := Option.isSome_iff_exists.mp hs
      obtain ⟨t, n, uv, hk, _, _⟩ := (partA i).mp hi
      rw [hk]
      rfl
    · intro hk
      obtain ⟨x, hx⟩ := Option.isSome_iff_exists.mp hk
      have hrangew : (match s.transform with
          | some tr => R.transform tr.transform
          | none => R).t_in_range x.1 := by
        rw [hm] at hx
        exact Mesh.mesh_hit_t_in_range m _ x hx
      apply Option.isSome_iff_exists.mpr
      exact ⟨_, (partA _).mpr ⟨x.1, x.2.1, x.2.2, hx, hwr x.1 hrangew, rfl⟩⟩

/-- Unfolding lemma for vector subtraction. -/
theorem Vec3.sub_def (a b : Vec3) : a - b = ⟨a.x - b.x, a.y - b.y, a.z - b.z⟩ := rfl

/-- Unfolding lemma for vector negation. -/
theorem Vec3.neg_def (a : Vec3) : -a = ⟨-a.x, -a.y, -a.z⟩ := rfl

/-- Unfolding lemma for componentwise vector multiplication. -/
theorem Vec3.mul_def (a b : Vec3) : a * b = ⟨a.x * b.x, a.y * b.y, a.z * b.z⟩ := rfl

/-- Unfolding lemma for vector-scalar multiplication. -/
theorem Vec3.hmul_def (a : Vec3) (k : ℚ) : a * k = ⟨a.x * k, a.y * k, a.z * k⟩ := rfl

/-- Unfolding lemma for scalar-vector multiplication. -/
theorem Vec3.smul_def (k : ℚ) (a : Vec3) : k * a = ⟨a.x * k, a.y * k, a.z * k⟩ := rfl

/-- Unfolding lemma for vector by scalar division. -/
theorem Vec3.hdiv_def (a : Vec3) (k : ℚ) :
    a / k = ⟨a.x * (1 / k), a.y * (1 / k), a.z * (1 / k)⟩ := rfl

/-- Unfolding lemma for quaternion addition. -/
theorem Quat.add_eq (a b : Quat) : a + b = ⟨a.r + b.r, a.v + b.v⟩ := rfl

/-- Unfolding lemma for quaternion subtraction. -/
theorem Quat.sub_eq (a b : Quat) : a - b = ⟨a.r - b.r, a.v - b.v⟩ := rfl

/-- Concrete intrinsics for the julia counterexample: exact square roots for
the discriminant values that occur, and a plausible rational stand-in for
`log2` at the marched length. -/
def fnsC1 : Fns :=
  ⟨fun x => if x = 9 / 4 then 3 / 2 else if x = 1 then 1 else if x = 5 / 2 then 158 / 100 else 0,
    fun _ => 0, fun _ _ => 0, fun _ => 0,
    fun x => if x = 158 / 100 then 2 / 3 else 0,
    fun _ _ => 0, 0⟩

/-- Placeholder material for concrete surfaces. -/
def matC1 : Material := ⟨0, 0, 1, Texture.color ⟨0, 0, 0⟩, ShadingModel.phong 0 0 0 1⟩

/-- Concrete julia set at the origin with zero iterations and a large
epsilon, so the very first march step reports a hit. -/
def juliaC1 : JuliaSet := ⟨Vec3.zero, Quat.new 0 0 0 0, 0, 10, ⟨Quat.new 0 0 0 0, none⟩, 1⟩

/-- Julia surface carrying the identity transform pair. -/
def surfC1 : Surface := ⟨Object.julia_set juliaC1, some ⟨Mat4.identity, Mat4.identity⟩, matC1⟩

/-- Short ray entering the julia bounding sphere: the kernel reports a hit
near `t = 1.03` but the ray is bounded by `max_t = 1/10`. -/
def rayC1 : Ray := ⟨⟨2, 1 / 2, 0⟩, ⟨-1, 0, 0⟩, ((1 / 10 : ℚ) : WithTop ℚ)⟩

set_option maxHeartbeats 2000000 in
/-- Counterexample to claim C1 as stated: for this julia surface with the
identity transform pair, the untransformed kernel applied to the rewritten
ray returns a hit, yet `Surface::intersection` returns `None`, because the
julia kernel ignores `max_t` and its total `t` falls outside the bounds of
the original ray. -/
theorem C1_julia_counterexample :
    (surfC1.obj.intersection fnsC1 (rayC1.transform Mat4.identity)).isSome = true ∧
      Surface.intersection fnsC1 surfC1 rayC1 = none := by
  constructor
  · norm_num [surfC1, rayC1, juliaC1, fnsC1, Object.intersection, JuliaSet.intersection,
      JuliaSet.sphere_intersect, JuliaSet.intersection_dist, JuliaSet.marchLoop,
      JuliaSet.iterate_intersect, JuliaSet.iterStep, JuliaSet.estimate_normal, JuliaSet.sqIter,
      Quat.new, Quat.square, Quat.length_squared, Quat.length, Quat.mul, Quat.scale,
      Quat.add_eq, Quat.sub_eq, Vec3.dot, Vec3.cross, Vec3.length_squared, Vec3.length,
      Vec3.normal, Vec3.zero, Vec3.add_def, Vec3.sub_def, Vec3.neg_def, Vec3.mul_def,
      Vec3.hmul_def, Vec3.smul_def, Vec3.hdiv_def, Ray.new, Ray.at_t, Ray.t_in_range,
      Ray.transform, Ray.set_bounds, Mat4.identity, Mat4.transform_point, Mat4.transform_vector,
      Mat4.multiply_vec4, fmin, BOUNDING_RADIUS_2, ESCAPE_THRESHOLD, DEL]
  · norm_num [surfC1, rayC1, juliaC1, fnsC1, Surface.intersection, Object.intersection,
      JuliaSet.intersection, JuliaSet.sphere_intersect, JuliaSet.intersection_dist,
      JuliaSet.marchLoop, JuliaSet.iterate_intersect, JuliaSet.iterStep,
      JuliaSet.estimate_normal, JuliaSet.sqIter, Quat.new, Quat.square, Quat.length_squared,
      Quat.length, Quat.mul, Quat.scale, Quat.add_eq, Quat.sub_eq, Vec3.dot, Vec3.cross,
      Vec3.length_squared, Vec3.length, Vec3.normal, Vec3.zero, Vec3.add_def, Vec3.sub_def,
      Vec3.neg_def, Vec3.mul_def, Vec3.hmul_def, Vec3.smul_def, Vec3.hdiv_def, Ray.new,
      Ray.at_t, Ray.t_in_range, Ray.transform, Ray.set_bounds, Mat4.identity,
      Mat4.transform_point, Mat4.transform_vector, Mat4.multiply_vec4, fmin,
      BOUNDING_RADIUS_2, ESCAPE_THRESHOLD, DEL]

/-- Concrete intrinsics for the amended C1 witness. -/
def fnsC1w : Fns :=
  ⟨fun x => if x = 1 / 4 then 1 / 2 else 0, fun _ => 0, fun _ _ => 0, fun _ => 0,
    fun _ => 0, fun _ _ => 0, 1⟩

/-- Concrete sphere surface with the identity transform pair. -/
def surfC1w : Surface :=
  ⟨Object.sphere (Sphere.new ⟨0, 0, -1⟩ (1 / 2)), some ⟨Mat4.identity, Mat4.identity⟩, matC1⟩

/-- Unbounded ray hitting the witness sphere at `t = 1/2`. -/
def rayC1w : Ray := ⟨⟨0, 0, 0⟩, ⟨0, 0, -1⟩, ⊤⟩

/-- Witness for claim C1: the characterization applied at a concrete sphere
surface carrying the identity transform pair yields the concrete
intersection record. -/
theorem C1_witness :
    Surface.intersection fnsC1w surfC1w rayC1w =
      some ⟨⟨0, 0, -(1 / 2)⟩, 1 / 2, ⟨0, 0, 1⟩, ((1 / 2 : ℚ), (1 / 2 : ℚ)), matC1⟩ := by
  have h := (C1_surface_intersection_characterization fnsC1w surfC1w rayC1w).1
  refine (h _).mpr ⟨1 / 2, ⟨0, 0, 1 / 2⟩, ((1 / 2 : ℚ), (1 / 2 : ℚ)), ?_, ?_, ?_⟩
  · norm_num [surfC1w, rayC1w, fnsC1w, Object.intersection, Sphere.intersection, Sphere.new,
      Sphere.intersection_coefficients, Sphere.get_texel_at, Vec3.dot, Vec3.cross,
      Vec3.length_squared, Vec3.length, Vec3.normal, Vec3.zero, Vec3.add_def, Vec3.sub_def,
      Vec3.neg_def, Vec3.mul_def, Vec3.hmul_def, Vec3.smul_def, Vec3.hdiv_def, Ray.new,
      Ray.at_t, Ray.t_in_range, Ray.transform, Ray.set_bounds, Mat4.identity,
      Mat4.transform_point, Mat4.transform_vector, Mat4.multiply_vec4]
  · norm_num [rayC1w, Ray.t_in_range]
  · norm_num [surfC1w, rayC1w, fnsC1w, Vec3.normal, Vec3.length, Vec3.length_squared,
      Vec3.zero, Vec3.add_def, Vec3.sub_def, Vec3.neg_def, Vec3.mul_def, Vec3.hmul_def,
      Vec3.smul_def, Vec3.hdiv_def, Mat4.identity, Mat4.transform_vector, Mat4.multiply_vec4,
      matC1]

/-- Claim C3: the object-space sphere kernel returns no hit when the
discriminant `Δ = h² − ac` is negative; otherwise it selects the smaller
root `(h − √Δ)/a`, falling back to the larger root `(h + √Δ)/a` when the
smaller root is negative, the hit being valid exactly when the chosen `t`
lies in `[0, max_t]`; the returned normal is `point − center`, not
normalized. -/
theorem C3_sphere_kernel_roots (F : Fns) (s : Sphere) (R : Ray) (a h c Δ sd : ℚ)
    (hac : s.intersection_coefficients R = (a, h, c)) (hΔ : Δ = h * h - a * c)
    (hsd : sd = F.sqrt Δ) (ha : 0 < a) :
    (Δ < 0 → s.intersection F R = none) ∧
      (0 ≤ Δ →
        (s.intersection F R = none ↔
            ¬R.t_in_range (if (h - sd) / a < 0 then (h + sd) / a else (h - sd) / a)) ∧
          ∀ x, s.intersection F R = some x →
              x.1 = (if (h - sd) / a < 0 then (h + sd) / a else (h - sd) / a) ∧
                x.2.1 = (R.origin + x.1 * R.direction) - s.center ∧
                x.2.2 = s.get_texel_at F (R.origin + x.1 * R.direction)) := by
  have hu : s.intersection F R =
      (if Δ < 0 then none
       else
        match R.at_t (if h - sd < 0 then (h + sd) / a else (h - sd) / a) with
        | none => none
        | some point =>
            some ((if h - sd < 0 then (h + sd) / a else (h - sd) / a), point - s.center,
              s.get_texel_at F point)) := by
    unfold Sphere.intersection
    rw [hac]
    dsimp only
    rw [← hΔ, ← hsd]
  have hbr : ((h - sd) / a < 0) ↔ (h - sd < 0) := by
    constructor
    · intro hlt
      by_contra hge
      push_neg at hge
      exact absurd hlt (not_lt.mpr (div_nonneg hge (le_of_lt ha)))
    · intro hlt
      exact div_neg_of_neg_of_pos hlt ha
  have hsel : (if (h - sd) / a < 0 then (h + sd) / a else (h - sd) / a) =
      (if h - sd < 0 then (h + sd) / a else (h - sd) / a) := by
    by_cases hx : h - sd < 0
    · rw [if_pos (hbr.mpr hx), if_pos hx]
    · rw [if_neg (fun hc2 => hx (hbr.mp hc2)), if_neg hx]
  constructor
  · intro hneg
    rw [hu, if_pos hneg]
  · intro hpos
    rw [hu, if_neg (not_lt.mpr hpos), hsel]
    set tq := (if h - sd < 0 then (h + sd) / a else (h - sd) / a) with htq
    constructor
    · cases hat : R.at_t tq with
      | none =>
          simp only [hat]
          have hnr : ¬R.t_in_range tq := by
            intro hr
            have h2 := (Ray.at_t_eq_some_iff R tq (R.origin + tq * R.direction)).mpr ⟨hr, rfl⟩
            rw [hat] at h2
            exact absurd h2 (by simp)
          simp [hnr]
      | some point =>
          simp only [hat]
          have hr : R.t_in_range tq := ((Ray.at_t_eq_some_iff R tq point).mp hat).1
          simp [hr]
    · intro x hx
      cases hat : R.at_t tq with
      | none => rw [hat] at hx; exact absurd hx (by simp)
      | some point =>
          rw [hat] at hx
          obtain rfl := Option.some.inj hx
          have hp := ((Ray.at_t_eq_some_iff R tq point).mp hat).2
          exact ⟨rfl, by rw [hp], by rw [hp]⟩

/-- Intrinsics for the C3 witness (the miss branch needs no square root). -/
def fnsC3 : Fns := ⟨fun _ => 0, fun _ => 0, fun _ _ => 0, fun _ => 0, fun _ => 0, fun _ _ => 0, 0⟩

/-- Concrete sphere for the C3 witness. -/
def sphC3 : Sphere := Sphere.new ⟨0, 0, -1⟩ (1 / 2)

/-- Concrete ray missing the witness sphere (`Δ = -1/2`). -/
def rayC3 : Ray := ⟨⟨0, 0, 0⟩, ⟨0, 1, 1⟩, ⊤⟩

/-- Witness for claim C3: the kernel reports no hit on a ray with negative
discriminant. -/
theorem C3_witness : Sphere.intersection fnsC3 sphC3 rayC3 = none :=
  (C3_sphere_kernel_roots fnsC3 sphC3 rayC3 2 (-1) (3 / 4) (-(1 / 2)) (fnsC3.sqrt (-(1 / 2)))
      (by
        norm_num [Sphere.intersection_coefficients, sphC3, rayC3, Sphere.new, Vec3.dot,
          Vec3.length_squared, Vec3.sub_def])
      (by norm_num) rfl (by norm_num)).1
    (by norm_num)

/-- Claim C4: the refraction of the source equals the specification formula:
with `c₁ = |n · v|`, entering (`n · v < 0`) uses `η' = 1/η` and the normal
unchanged, exiting flips the normal and uses `η' = η`; the result is `None`
exactly when `k = 1 − η'²(1 − c₁²) < 0` (total internal reflection), else a
ray with direction `t = η'(v + n c₁) − n √k` and origin
`hit.point + 10⁻⁴ · t`. -/
theorem C4_refracted_ray_eq_spec (F : Fns) (i : Intersection) (ray : Ray) :
    i.refracted_ray F ray = refracted_ray_spec F i ray ∧
      (i.refracted_ray F ray = none ↔
        1 -
            (if i.normal.dot ray.direction < 0 then 1 / i.material.refraction
              else i.material.refraction) *
              (if i.normal.dot ray.direction < 0 then 1 / i.material.refraction
                else i.material.refraction) *
              (1 - |i.normal.dot ray.direction| * |i.normal.dot ray.direction|) <
          0) := by
  have hmain : i.refracted_ray F ray = refracted_ray_spec F i ray := by
    unfold Intersection.refracted_ray refracted_ray_spec
    dsimp only
    by_cases hnv : i.normal.dot ray.direction < 0
    · simp only [if_pos hnv, abs_of_neg hnv]
    · simp only [if_neg hnv, abs_of_nonneg (not_lt.mp hnv)]
  refine ⟨hmain, ?_⟩
  rw [hmain]
  unfold refracted_ray_spec
  dsimp only
  split_ifs with h1 h2 h3
  · exact iff_of_true rfl h2
  · exact iff_of_false (by simp) h2
  · exact iff_of_true rfl h3
  · exact iff_of_false (by simp) h3

/-- Claim C5 (amended): the primary ray through pixel `(u, v)` of a camera
built from angle `fov_x` has camera-space
`x = (((2u+1)/width) − 1) · tan(fov_x)` — the full constructor angle, not
`tan(fov_x/2)` — and `y = (((2v+1)/height) − 1) · tan(fov_x) · (height/width)`,
direction `(x, y, −1)`, origin `(0,0,0)`, then the look-at transform and
normalization. -/
theorem C5_camera_ray_amended (F : Fns) (pos lookat up : Vec3) (fov_x : ℚ)
    (horizontal vertical : ℕ) (mb : ℕ) (u v : ℕ) :
    (Camera.new F pos lookat up fov_x horizontal vertical mb).get_ray_through F u v =
      ((Ray.new Vec3.zero
            ⟨((2 * (u : ℚ) + 1) / (horizontal : ℚ) - 1) * F.tan fov_x,
              ((2 * (v : ℚ) + 1) / (vertical : ℚ) - 1) * F.tan fov_x *
                ((vertical : ℚ) / (horizontal : ℚ)),
              -1⟩).transform
          (Mat4.look_at F pos lookat up)).normal F := by
  unfold Camera.get_ray_through Camera.compute_camera_ray Camera.new
  dsimp only

/-- Intrinsics for the C5 counterexample: `sqrt ≡ 1` makes the look-at
matrix of the axis-aligned camera the identity and normalization the
identity map; the tangent takes distinct plausible values at the full and
half angle. -/
def fnsC5 : Fns :=
  ⟨fun _ => 1,
    fun x => if x = 1 then 1557 / 1000 else if x = 1 / 2 then 546 / 1000 else 0,
    fun _ _ => 0, fun _ => 0, fun _ => 0, fun _ _ => 0, 0⟩

/-- Counterexample to claim C5 as stated: for the camera built from angle
`fov_x = 1` the camera-space `x` of the ray through pixel `(0, 0)` uses
`tan(fov_x)`, not `tan(fov_x/2)` as the claim words it. -/
theorem C5_counterexample :
    ((Camera.new fnsC5 ⟨0, 0, 0⟩ ⟨0, 0, -1⟩ ⟨0, 1, 0⟩ 1 2 2 0).get_ray_through fnsC5
          0 0).direction.x ≠
      (compute_camera_ray_spec fnsC5 2 2 1 0 0).direction.x := by
  norm_num [Camera.new, Camera.get_ray_through, Camera.compute_camera_ray,
    compute_camera_ray_spec, fnsC5, Mat4.look_at, Mat4.transform_point, Mat4.transform_vector,
    Mat4.multiply_vec4, Ray.new, Ray.transform, Ray.set_bounds, Ray.normal, Vec3.normal,
    Vec3.length, Vec3.length_squared, Vec3.cross, Vec3.sub_def, Vec3.zero, Vec3.add_def,
    Vec3.neg_def, Vec3.mul_def, Vec3.hmul_def, Vec3.smul_def, Vec3.hdiv_def, Vec3.dot]

/-- Claim C6 (amended): in a render of `F` total frames, for every 1-based
frame `f` with `2 ≤ f` the animated sphere in effect when frame `f` is
rendered has center `lerp(startCenter, endCenter, f/F)` and radius
`lerp(startRadius, endRadius, f/F)`; the first frame instead uses the start
parameters unchanged (the claimed formula fails at `f = 1`). -/
theorem C6_animated_sphere_lerp (s : Scene) (j : ℕ) (surf : Surface) (sp : Sphere)
    (ec : Vec3) (er : ℚ) (f : ℕ) (hcurr : s.animated.curr_frame = 1)
    (hj : s.surfaces.get? j = some surf) (hobj : surf.obj = Object.sphere sp)
    (hend : sp.animation.endP = some (ec, er)) (hf : 2 ≤ f) :
    ∃ surf2 : Surface, ∃ sp2 : Sphere,
      (s.afterFrames (f - 1)).surfaces.get? j = some surf2 ∧
        surf2.obj = Object.sphere sp2 ∧
        sp2.center = lerpV sp.animation.start.1 ec ((f : ℚ) / (s.animated.total_frames : ℚ)) ∧
        sp2.radius = lerpQ sp.animation.start.2 er ((f : ℚ) / (s.animated.total_frames : ℚ)) := by
  have hk : 1 ≤ f - 1 := by omega
  have h := s.afterFrames_sphere j surf sp (ec, er) hj hobj hend (f - 1) hk
  have hfe : s.animated.curr_frame + (f - 1) = f := by omega
  rw [hfe] at h
  exact ⟨_, _, h, rfl, rfl, rfl⟩

/-- Camera record for the C6 scene (fields chosen directly). -/
def camC6 : Camera := ⟨2, 2, 0, 1, 0, Mat4.identity, none⟩

/-- Animated sphere of the C6 scene: start center `(0,0,-3)`, end center
`(0,0,-5)`, constant radius 1. -/
def sphereC6 : Sphere :=
  ⟨⟨0, 0, -3⟩, 1, ⟨(⟨0, 0, -3⟩, 1), some (⟨0, 0, -5⟩, 1)⟩⟩

/-- Surface wrapping the C6 sphere. -/
def surfC6 : Surface := ⟨Object.sphere sphereC6, none, matC1⟩

/-- Scene with three total frames around the animated sphere. -/
def sceneC6 : Scene := (Scene.new ⟨0, 0, 0⟩ camC6 [] [surfC6]).set_animation 3 1

/-- Counterexample to claim C6 as stated: when frame `f = 1` of `F = 3` is
rendered (no `next_frame` has run yet), the sphere center is the start
center `(0,0,-3)`, not `lerp(start, end, 1/3)`. -/
theorem C6_counterexample :
    ∃ surf2 : Surface, ∃ sp2 : Sphere,
      (sceneC6.afterFrames (1 - 1)).surfaces.get? 0 = some surf2 ∧
        surf2.obj = Object.sphere sp2 ∧
        sp2.center ≠ lerpV ⟨0, 0, -3⟩ ⟨0, 0, -5⟩ ((1 : ℚ) / 3) := by
  refine ⟨surfC6, sphereC6, rfl, rfl, ?_⟩
  norm_num [lerpV, sphereC6, Vec3.smul_def, Vec3.hmul_def, Vec3.add_def]

/-- Witness for claim C6: at frame `f = 2` of `F = 3` the sphere center is
the lerp at weight `2/3`. -/
theorem C6_witness :
    ∃ surf2 : Surface, ∃ sp2 : Sphere,
      (sceneC6.afterFrames (2 - 1)).surfaces.get? 0 = some surf2 ∧
        surf2.obj = Object.sphere sp2 ∧
        sp2.center =
          lerpV sphereC6.animation.start.1 ⟨0, 0, -5⟩
            (((2 : ℕ) : ℚ) / (sceneC6.animated.total_frames : ℚ)) ∧
        sp2.radius =
          lerpQ sphereC6.animation.start.2 1
            (((2 : ℕ) : ℚ) / (sceneC6.animated.total_frames : ℚ)) :=
  C6_animated_sphere_lerp sceneC6 0 surfC6 sphereC6 ⟨0, 0, -5⟩ 1 2 rfl rfl rfl rfl
    (by norm_num)

/-- Claim C7: the mesh texel is the (signed) fractional part of the
barycentric blends, and for every such texel — whatever rational barycentric
inputs produced it — the image lookup of `Texture::get_color` stays in
bounds: the addressed index is below the frame length, the pixel exists (no
panic), and the returned color is the conversion of exactly that pixel. -/
theorem C7_texture_lookup_wraps (img : Image) (tr : Triangle) (a b : ℚ) (fr : List Rgb)
    (hw : 0 < img.width) (hh : 0 < img.height) (hfr : img.buf.get? 0 = some fr)
    (hlen : fr.length = img.width * img.height) :
    (tr.texel_at a b).1 = fmodOne ((1 - a - b) * tr.t0.1 + a * tr.t1.1 + b * tr.t2.1) ∧
      (tr.texel_at a b).2 = fmodOne ((1 - a - b) * tr.t0.2 + a * tr.t1.2 + b * tr.t2.2) ∧
      ∃ px : Rgb,
        f32toU32 ((tr.texel_at a b).1 * (img.width : ℚ)) +
            img.width * f32toU32 ((tr.texel_at a b).2 * (img.height : ℚ)) <
          fr.length ∧
          img.get_pixel 0 (tr.texel_at a b).1 (tr.texel_at a b).2 = some px ∧
          fr.get?
              (f32toU32 ((tr.texel_at a b).1 * (img.width : ℚ)) +
                img.width * f32toU32 ((tr.texel_at a b).2 * (img.height : ℚ))) =
            some px ∧
          Texture.get_color? (Texture.image img) (tr.texel_at a b) = some (Color.fromRgb px) := by
  refine ⟨rfl, rfl, ?_⟩
  have hu1 : (tr.texel_at a b).1 < 1 := (fmodOne_bounds _).2
  have hv1 : (tr.texel_at a b).2 < 1 := (fmodOne_bounds _).2
  have hx := f32toU32_lt (tr.texel_at a b).1 img.width hw hu1
  have hy := f32toU32_lt (tr.texel_at a b).2 img.height hh hv1
  have hidx : f32toU32 ((tr.texel_at a b).1 * (img.width : ℚ)) +
      img.width * f32toU32 ((tr.texel_at a b).2 * (img.height : ℚ)) <
        img.width * img.height := by
    have h2 : f32toU32 ((tr.texel_at a b).2 * (img.height : ℚ)) + 1 ≤ img.height := hy
    calc f32toU32 ((tr.texel_at a b).1 * (img.width : ℚ)) +
          img.width * f32toU32 ((tr.texel_at a b).2 * (img.height : ℚ)) <
        img.width + img.width * f32toU32 ((tr.texel_at a b).2 * (img.height : ℚ)) := by omega
      _ = img.width * (f32toU32 ((tr.texel_at a b).2 * (img.height : ℚ)) + 1) := by ring
      _ ≤ img.width * img.height := Nat.mul_le_mul_left _ h2
  have hidx2 : f32toU32 ((tr.texel_at a b).1 * (img.width : ℚ)) +
      img.width * f32toU32 ((tr.texel_at a b).2 * (img.height : ℚ)) < fr.length := by
    rw [hlen]
    exact hidx
  have hget := List.get?_eq_get hidx2
  have hpix : img.get_pixel 0 (tr.texel_at a b).1 (tr.texel_at a b).2 =
      some (fr.get ⟨_, hidx2⟩) := by
    unfold Image.get_pixel
    dsimp only
    rw [hfr]
    exact hget
  refine ⟨fr.get ⟨_, hidx2⟩, hidx2, hpix, hget, ?_⟩
  show Option.map Color.fromRgb (img.get_pixel 0 (tr.texel_at a b).1 (tr.texel_at a b).2) = _
  rw [hpix]
  rfl

/-- Concrete 2-by-2 image for the C7 witness. -/
def imgC7 : Image := ⟨2, 2, [[(10, 0, 0), (20, 0, 0), (30, 0, 0), (40, 0, 0)]]⟩

/-- Triangle whose first texture coordinate lies outside the unit square. -/
def triC7 : Triangle :=
  ⟨⟨0, 0, 0⟩, ⟨1, 0, 0⟩, ⟨0, 1, 0⟩, ⟨0, 0, 1⟩, ⟨0, 0, 1⟩, ⟨0, 0, 1⟩,
    (5 / 4, -(1 / 4)), (0, 0), (0, 0)⟩

/-- Witness for claim C7: the lookup of the wrapped out-of-range texel of
the concrete triangle on a 2-by-2 image succeeds. -/
theorem C7_witness :
    (triC7.texel_at 0 0).1 =
        fmodOne ((1 - 0 - 0) * triC7.t0.1 + 0 * triC7.t1.1 + 0 * triC7.t2.1) ∧
      (triC7.texel_at 0 0).2 =
        fmodOne ((1 - 0 - 0) * triC7.t0.2 + 0 * triC7.t1.2 + 0 * triC7.t2.2) ∧
      ∃ px : Rgb,
        f32toU32 ((triC7.texel_at 0 0).1 * (imgC7.width : ℚ)) +
            imgC7.width * f32toU32 ((triC7.texel_at 0 0).2 * (imgC7.height : ℚ)) <
          [((10 : ℕ), (0 : ℕ), (0 : ℕ)), (20, 0, 0), (30, 0, 0), (40, 0, 0)].length ∧
          imgC7.get_pixel 0 (triC7.texel_at 0 0).1 (triC7.texel_at 0 0).2 = some px ∧
          [((10 : ℕ), (0 : ℕ), (0 : ℕ)), (20, 0, 0), (30, 0, 0), (40, 0, 0)].get?
              (f32toU32 ((triC7.texel_at 0 0).1 * (imgC7.width : ℚ)) +
                imgC7.width * f32toU32 ((triC7.texel_at 0 0).2 * (imgC7.height : ℚ))) =
            some px ∧
          Texture.get_color? (Texture.image imgC7) (triC7.texel_at 0 0) =
            some (Color.fromRgb px) :=
  C7_texture_lookup_wraps imgC7 triC7 0 0
    [((10 : ℕ), (0 : ℕ), (0 : ℕ)), (20, 0, 0), (30, 0, 0), (40, 0, 0)] (by decide) (by decide)
    rfl rfl

/-- Claim C8: the closest intersection is `None` exactly when no surface
intersects; otherwise it is a returned intersection of minimal `t` among all
surfaces; every `t` entering the comparison — in the scene argmin as well as
inside the mesh kernel — lies in the real interval `[0, max_t]`, so no `NaN`
can reach the `partial_cmp` and the panic branches are unreachable. -/
theorem C8_closest_intersection_argmin (F : Fns) (s : Scene) (R : Ray) :
    (s.closest_intersection F R = none ↔
        ∀ surf ∈ s.surfaces, surf.intersection F R = none) ∧
      (∀ i, s.closest_intersection F R = some i →
          (∃ surf ∈ s.surfaces, surf.intersection F R = some i) ∧
            (∀ surf ∈ s.surfaces, ∀ j, surf.intersection F R = some j → i.t ≤ j.t) ∧
            R.t_in_range i.t) ∧
      (∀ surf ∈ s.surfaces, ∀ j, surf.intersection F R = some j → R.t_in_range j.t) ∧
      (∀ (tr : Triangle) (x : Vec3 × Texel × ℚ), tr.intersection R = some x →
          R.t_in_range x.2.2) := by
  refine ⟨?_, ?_, ?_, ?_⟩
  · unfold Scene.closest_intersection
    rw [(minByQ_spec (fun i : Intersection => i.t)
        (s.surfaces.filterMap (fun surface => Surface.intersection F surface R))).1]
    exact List.filterMap_eq_nil
  · intro i hi
    unfold Scene.closest_intersection at hi
    obtain ⟨hmem, hmin⟩ := (minByQ_spec (fun i => i.t) _).2 i hi
    obtain ⟨surf, hsurf, hint⟩ := List.mem_filterMap.mp hmem
    refine ⟨⟨surf, hsurf, hint⟩, ?_, Surface.surf_hit_t_in_range F surf R i hint⟩
    intro surf2 hsurf2 j hj
    exact hmin j (List.mem_filterMap.mpr ⟨surf2, hsurf2, hj⟩)
  · intro surf _ j hj
    exact Surface.surf_hit_t_in_range F surf R j hj
  · intro tr x hx
    exact Triangle.tri_hit_t_in_range tr R x hx

/-- Intrinsics for the C8 and C9 witnesses: exact square root at 1. -/
def fnsC8 : Fns :=
  ⟨fun x => if x = 1 then 1 else 0, fun _ => 0, fun _ _ => 0, fun _ => 0, fun _ => 0,
    fun _ _ => 0, 0⟩

/-- Near sphere of the C8 scene, hit at `t = 1`. -/
def sphNear : Surface := ⟨Object.sphere (Sphere.new ⟨0, 0, -2⟩ 1), none, matC1⟩

/-- Far sphere of the C8 scene, hit at `t = 3`. -/
def sphFar : Surface := ⟨Object.sphere (Sphere.new ⟨0, 0, -4⟩ 1), none, matC1⟩

/-- Scene with the far sphere listed first. -/
def sceneC8 : Scene := Scene.new ⟨0, 0, 0⟩ camC6 [] [sphFar, sphNear]

/-- Ray of the C8 witness. -/
def rayC8 : Ray := ⟨⟨0, 0, 0⟩, ⟨0, 0, -1⟩, ⊤⟩

/-- Intersection record of the near sphere at `t = 1`. -/
def iC8 : Intersection := ⟨⟨0, 0, -1⟩, 1, ⟨0, 0, 1⟩, ((1 / 2 : ℚ), (1 / 2 : ℚ)), matC1⟩

/-- Intersection record of the far sphere at `t = 3`. -/
def iC8far : Intersection := ⟨⟨0, 0, -3⟩, 3, ⟨0, 0, 1⟩, ((1 / 2 : ℚ), (1 / 2 : ℚ)), matC1⟩

/-- Witness for claim C8: on the two-sphere scene the closest intersection
is the near hit, its `t` is below the far hit's `t`, and it lies within the
ray bounds. -/
theorem C8_witness : iC8.t ≤ iC8far.t ∧ rayC8.t_in_range iC8.t := by
  have hclosest : Scene.closest_intersection fnsC8 sceneC8 rayC8 = some iC8 := by
    norm_num [Scene.closest_intersection, sceneC8, Scene.new, sphFar, sphNear, rayC8, fnsC8,
      iC8, minByQ, List.filterMap, Surface.intersection, Object.intersection,
      Sphere.intersection, Sphere.new, Sphere.intersection_coefficients, Sphere.get_texel_at,
      Vec3.dot, Vec3.length_squared, Vec3.length, Vec3.normal, Vec3.zero, Vec3.add_def,
      Vec3.sub_def, Vec3.neg_def, Vec3.mul_def, Vec3.hmul_def, Vec3.smul_def, Vec3.hdiv_def,
      Ray.at_t, Ray.t_in_range, matC1]
  have h := (C8_closest_intersection_argmin fnsC8 sceneC8 rayC8).2.1 iC8 hclosest
  refine ⟨?_, h.2.2⟩
  apply h.2.1 sphFar (by simp [sceneC8, Scene.new]) iC8far
  norm_num [sphFar, rayC8, fnsC8, iC8far, Surface.intersection, Object.intersection,
    Sphere.intersection, Sphere.new, Sphere.intersection_coefficients, Sphere.get_texel_at,
    Vec3.dot, Vec3.length_squared, Vec3.length, Vec3.normal, Vec3.zero, Vec3.add_def,
    Vec3.sub_def, Vec3.neg_def, Vec3.mul_def, Vec3.hmul_def, Vec3.smul_def, Vec3.hdiv_def,
    Ray.at_t, Ray.t_in_range, matC1]

/-- Sphere of the C9 scene, radius 1 around `(0,0,-1)`. -/
def sphC9 : Sphere := Sphere.new ⟨0, 0, -1⟩ 1

/-- Ray starting at the center of the C9 sphere. -/
def rayC9 : Ray := ⟨⟨0, 0, -1⟩, ⟨0, 0, -1⟩, ⊤⟩

/-- Scene holding only the C9 sphere. -/
def sceneC9 : Scene := Scene.new ⟨0, 0, 0⟩ camC6 [] [⟨Object.sphere sphC9, none, matC1⟩]

/-- Claim C9: `Sphere::has_intersection` is true exactly when the smaller
root `(h − √Δ)/a` lies in `[0, max_t]` (with `Δ ≥ 0`); consequently a ray
starting inside the sphere — where only the larger root is in range — gets
an intersection from `Sphere::intersection` while `has_intersection` is
false, so `Scene::intersects_any` misses this occluder. -/
theorem C9_has_intersection_mismatch :
    (∀ (F : Fns) (s : Sphere) (R : Ray) (a h c : ℚ),
        s.intersection_coefficients R = (a, h, c) →
          (s.has_intersection F R = true ↔
            0 ≤ h * h - a * c ∧ R.t_in_range ((h - F.sqrt (h * h - a * c)) / a))) ∧
      (Sphere.intersection fnsC8 sphC9 rayC9).isSome = true ∧
      Sphere.has_intersection fnsC8 sphC9 rayC9 = false ∧
      Scene.intersects_any fnsC8 sceneC9 rayC9 = false := by
  refine ⟨?_, ?_, ?_, ?_⟩
  · intro F s R a h c hac
    unfold Sphere.has_intersection
    rw [hac]
    dsimp only
    rw [Bool.and_eq_true, decide_eq_true_eq, Ray.at_t_isSome_iff]
  · norm_num [sphC9, rayC9, fnsC8, Sphere.intersection, Sphere.new,
      Sphere.intersection_coefficients, Sphere.get_texel_at, Vec3.dot, Vec3.length_squared,
      Vec3.length, Vec3.normal, Vec3.zero, Vec3.add_def, Vec3.sub_def, Vec3.neg_def,
      Vec3.mul_def, Vec3.hmul_def, Vec3.smul_def, Vec3.hdiv_def, Ray.at_t, Ray.t_in_range]
  · norm_num [sphC9, rayC9, fnsC8, Sphere.has_intersection, Sphere.new,
      Sphere.intersection_coefficients, Vec3.dot, Vec3.length_squared, Vec3.sub_def,
      Ray.at_t, Ray.t_in_range]
  · norm_num [sceneC9, Scene.new, Scene.intersects_any, Surface.has_intersection,
      Object.has_intersection, sphC9, rayC9, fnsC8, Sphere.has_intersection, Sphere.new,
      Sphere.intersection_coefficients, Vec3.dot, Vec3.length_squared, Vec3.sub_def,
      Ray.at_t, Ray.t_in_range]

/-- Witness for claim C9: the characterization of `has_intersection` applied
at the concrete inside-the-sphere ray. -/
theorem C9_witness :
    Sphere.has_intersection fnsC8 sphC9 rayC9 = true ↔
      0 ≤ (0 : ℚ) * 0 - 1 * (-1) ∧
        rayC9.t_in_range (((0 : ℚ) - fnsC8.sqrt ((0 : ℚ) * 0 - 1 * (-1))) / 1) :=
  C9_has_intersection_mismatch.1 fnsC8 sphC9 rayC9 1 0 (-1)
    (by
      norm_num [Sphere.intersection_coefficients, sphC9, rayC9, Sphere.new, Vec3.dot,
        Vec3.length_squared, Vec3.sub_def])

/-- Claim C10: for a frame of `w · h` cells (`w, h > 0`) the pixel driver
invokes the closure on exactly `w · h` coordinates; the coordinate of the
0-based cell `i` is `((i+1) mod w, (i+1) div w)`, hence `(0,0)` is never
passed, the out-of-range coordinate `(0, h)` is passed exactly for the last
cell, and each cell receives the closure value of its own coordinate. -/
theorem C10_par_init_pixels_coords (w h : ℕ) (hw : 0 < w) (hh : 0 < h) :
    (initCoords w (w * h)).length = w * h ∧
      (∀ i, i < w * h → (initCoords w (w * h)).get? i = some ((i + 1) % w, (i + 1) / w)) ∧
      ((0, 0) ∉ initCoords w (w * h)) ∧
      (∀ i, i < w * h →
          ((initCoords w (w * h)).get? i = some (0, h) ↔ i = w * h - 1)) ∧
      (∀ (op : ℕ × ℕ → Rgb) (i : ℕ), i < w * h →
          ((initCoords w (w * h)).map op).get? i = some (op ((i + 1) % w, (i + 1) / w))) ∧
      ∀ (img : Image) (frame : ℕ) (op : ℕ × ℕ → Rgb),
        frame < img.buf.length →
          (img.par_init_pixels frame op).buf.get? frame =
            some ((initCoords img.width (img.buf.getD frame []).length).map op) := by
  have hform := initCoords_formula w (w * h) hw
  have hget : ∀ i, i < w * h →
      (initCoords w (w * h)).get? i = some ((i + 1) % w, (i + 1) / w) := by
    intro i hi
    rw [hform, List.get?_map, List.get?_range hi]
    rfl
  refine ⟨?_, hget, ?_, ?_, ?_, ?_⟩
  · rw [hform]
    simp
  · rw [hform]
    intro hmem
    obtain ⟨i, _, heq⟩ := List.mem_map.mp hmem
    have h1 : (i + 1) % w = 0 := (Prod.mk.injEq _ _ _ _).mp heq |>.1
    have h2 : (i + 1) / w = 0 := (Prod.mk.injEq _ _ _ _).mp heq |>.2
    have hdm := Nat.div_add_mod (i + 1) w
    rw [h1, h2] at hdm
    omega
  · intro i hi
    rw [hget i hi]
    constructor
    · intro heq
      have h1 : (i + 1) % w = 0 := by
        have := Option.some.inj heq
        exact ((Prod.mk.injEq _ _ _ _).mp this).1
      have h2 : (i + 1) / w = h := by
        have := Option.some.inj heq
        exact ((Prod.mk.injEq _ _ _ _).mp this).2
      have hdm := Nat.div_add_mod (i + 1) w
      rw [h1, h2] at hdm
      generalize hN : w * h = N at *
      omega
    · intro heq
      have hwh : 0 < w * h := Nat.mul_pos hw hh
      have hi1 : i + 1 = w * h := by omega
      have h1 : (i + 1) % w = 0 := by rw [hi1]; exact Nat.mul_mod_right w h
      have h2 : (i + 1) / w = h := by rw [hi1]; exact Nat.mul_div_cancel_left h hw
      rw [h1, h2]
  · intro op i hi
    rw [List.get?_map, hget i hi]
    rfl
  · intro img frame op hframe
    unfold Image.par_init_pixels
    dsimp only
    rw [List.get?_set_eq]
    rw [List.get?_eq_get hframe]
    rfl

/-- Witness for claim C10: concrete driver facts at `w = 3`, `h = 2` — the
last cell gets the out-of-range coordinate `(0, 2)` and `(0, 0)` is never
generated. -/
theorem C10_witness :
    ((initCoords 3 6).get? 5 = some (0, 2)) ∧ ((0, 0) ∉ initCoords 3 6) := by
  have h := C10_par_init_pixels_coords 3 2 (by decide) (by decide)
  exact ⟨(h.2.2.2.1 5 (by decide)).mpr (by decide), h.2.2.1⟩
